import Mathlib

/-!
Shallow embedding of the orchestration-and-resilience layer of the
investment-assistant repository: the retry/fallback executor
(`production/error_handling.py`), the production graph wrapper
(`production/enhanced_graph.py`), the metrics and performance collectors
(`production/monitoring.py`), the intent router (`nodes/router.py`,
`graph.py`) and the sliding-window rate limiter (`api/main.py`).

Python floats are modelled as rationals (`Rat`); Python dicts that carry
pipeline state are modelled as insertion-ordered association lists with
unique keys maintained by the `dictSet` operation; `defaultdict(int)`
counters are modelled as total functions `String → Nat` defaulting to 0.
Wall-clock reads (`time.time()`) are supplied by explicit oracle values.
-/

namespace InvestmentAssistant

/-- A Python value, covering the fragment of values the modelled code
stores in its dicts: strings, numbers (as rationals), booleans, `None`,
and the empty list used for `conversation_history`. -/
inductive PyVal
  | str (s : String)
  | rat (q : Rat)
  | bool (b : Bool)
  | pynone
  | emptyList
deriving DecidableEq

/-- A Python dict as an insertion-ordered association list. -/
abbrev Dict := List (String × PyVal)

/-- Python `d.get(k)`: the value at `k`, if present. -/
def dictGet? (d : Dict) (k : String) : Option PyVal :=
  (List.find? (fun p => p.1 = k) d).map (fun p => p.2)

/-- Python `d[k] = v`: replace the value in place if the key exists
(insertion order preserved), otherwise append the new binding. -/
def dictSet (d : Dict) (k : String) (v : PyVal) : Dict :=
  if List.any d (fun p => p.1 = k) then
    List.map (fun p : String × PyVal => if p.1 = k then (k, v) else p) d
  else
    d ++ [(k, v)]

/-- Python `{**d, **u}` / LangGraph state update: merge `u` into `d`
with last-write-wins. -/
def dictMerge (d u : Dict) : Dict :=
  List.foldl (fun acc p => dictSet acc p.1 p.2) d u

/-- The f-string rendering of a Python value (numeric rendering is
abstracted; no claim depends on it). -/
def pyStr : PyVal → String
  | .str s => s
  | .bool true => "True"
  | .bool false => "False"
  | .pynone => "None"
  | .emptyList => "[]"
  | .rat _ => "<num>"

/-! ## String helpers

Kernel-reducible stand-ins for the Python string operations the code
uses (`str.strip`, `str.split`, slicing), implemented over `List Char`
so that concrete runs evaluate by `decide`/`rfl`. -/

/-- ASCII whitespace, the fragment of Python `str.strip`'s default
character set that the modelled strings can contain. -/
def isSpaceChar (c : Char) : Bool :=
  c = ' ' || c = '\t' || c = '\n' || c = '\r'

def trimChars (cs : List Char) : List Char :=
  ((cs.dropWhile isSpaceChar).reverse.dropWhile isSpaceChar).reverse

/-- Python `s.strip()`. -/
def pyStrip (s : String) : String :=
  ⟨trimChars s.data⟩

/-- Python `s[:n]`. -/
def pyTake (s : String) (n : Nat) : String :=
  ⟨s.data.take n⟩

/-- Python `s.split(sep)` for a one-character separator: splitting the
empty string yields `[""]`, and separators at the ends yield empty
fields, exactly as in Python. -/
def splitOnChar (sep : Char) : List Char → List (List Char)
  | [] => [[]]
  | c :: rest =>
    let r := splitOnChar sep rest
    if c = sep then [] :: r
    else
      match r with
      | g :: gs => (c :: g) :: gs
      | [] => [[c]]

/-- `ErrorSeverity` from `error_handling.py`. -/
inductive ErrorSeverity
  | low | medium | high | critical
deriving DecidableEq

/-- The exception class of a raised error, as the `except` clauses of
`with_error_handling` distinguish them: the three named
`InvestmentAssistantError` subclasses it handles specially,
`ConfigurationError` and the bare base class (both caught by the generic
`except Exception` clause), and foreign (non-assistant) exceptions with
their Python type name. -/
inductive PyErrClass
  | modelTimeoutError
  | dataFetchError
  | validationError
  | configurationError
  | assistantBase
  | foreign (typeName : String)
deriving DecidableEq

/-- `type(error).__name__`. -/
def PyErrClass.typeName : PyErrClass → String
  | .modelTimeoutError => "ModelTimeoutError"
  | .dataFetchError => "DataFetchError"
  | .validationError => "ValidationError"
  | .configurationError => "ConfigurationError"
  | .assistantBase => "InvestmentAssistantError"
  | .foreign n => n

/-- Whether the class derives from `InvestmentAssistantError` (foreign
exceptions do not carry a `severity` attribute; `log_error` only reads
severity on assistant errors). -/
def PyErrClass.isAssistantError : PyErrClass → Bool
  | .foreign _ => false
  | _ => true

/-- A raised Python exception: its class, message, and severity
(`severity` is meaningful only when the class is an assistant error;
the constructors default it to `medium`). -/
structure PyError where
  cls : PyErrClass
  message : String
  severity : ErrorSeverity
deriving DecidableEq

/-- `ValidationError(msg)` with the default `ErrorSeverity.MEDIUM`. -/
def mkValidationError (msg : String) : PyError :=
  ⟨.validationError, msg, .medium⟩

/-! ## ErrorHandler (`error_handling.py`, `ErrorHandler`) -/

/-- The log level `log_error` picks from the severity (assistant
errors branch on `error.severity`; foreign errors go to `logger.error`). -/
inductive LogLevel
  | critical | error | warning | info
deriving DecidableEq

def logLevelOf (e : PyError) : LogLevel :=
  if e.cls.isAssistantError then
    match e.severity with
    | .critical => .critical
    | .high => .error
    | .medium => .warning
    | .low => .info
  else .error

/-- `ErrorHandler` state: the frequency counter `error_counts` keyed on
`f"{type(error).__name__}:{str(error)[:100]}"`, plus the stream of
structured log entries emitted (each carrying the full error, hence its
severity, and the level chosen from it). -/
structure ErrorHandler where
  errorCounts : String → Nat
  logged : List (PyError × LogLevel)

def ErrorHandler.initial : ErrorHandler := ⟨fun _ => 0, []⟩

/-- The frequency-tracking key `f"{type(error).__name__}:{str(error)[:100]}"`. -/
def errorKey (e : PyError) : String :=
  e.cls.typeName ++ ":" ++ pyTake e.message 100

/-- Bump a `defaultdict(int)`-style counter at one key. -/
def bump (c : String → Nat) (key : String) (k : String) : Nat :=
  if k = key then c k + 1 else c k

/-- `ErrorHandler.log_error`: increment the frequency counter at the
error's key and emit one structured log entry at the severity-derived
level. -/
def log_error (h : ErrorHandler) (e : PyError) : ErrorHandler :=
  { errorCounts := bump h.errorCounts (errorKey e)
    logged := h.logged ++ [(e, logLevelOf e)] }

/-! ## MetricsCollector (`monitoring.py`) -/

/-- `deque(maxlen = maxlen)` append: drop from the left once the
capacity is exceeded. -/
def dequeAppend (maxlen : Nat) (xs : List Rat) (x : Rat) : List Rat :=
  let ys := xs ++ [x]
  if ys.length > maxlen then ys.drop (ys.length - maxlen) else ys

/-- `MetricsCollector` state. `metrics` deques are split into named
fields (`response_times`, `requests_per_minute`, and the background
resource gauges); `counters` is the `defaultdict(int)` keyed by strings
such as `"total_requests"` and `"intent_" ++ intent`.
(`record_llm_usage` is never invoked anywhere in the repository and is
omitted.) -/
structure MetricsCollector where
  windowSize : Nat
  responseTimes : List Rat
  requestTimestamps : List Rat
  cpuUsage : List Rat
  memoryUsage : List Rat
  diskUsage : List Rat
  counters : String → Nat
  startTime : Rat

/-- A fresh collector (`MetricsCollector(window_size = 100)`), as the
global `metrics` instance is built. -/
def MetricsCollector.fresh (start : Rat) : MetricsCollector :=
  { windowSize := 100
    responseTimes := []
    requestTimestamps := []
    cpuUsage := []
    memoryUsage := []
    diskUsage := []
    counters := fun _ => 0
    startTime := start }

/-- `MetricsCollector.record_request(intent, response_time, success)`;
`now` is the `time.time()` read inside the method. -/
def record_request (m : MetricsCollector) (now : Rat) (intent : String)
    (responseTime : Rat) (success : Bool) : MetricsCollector :=
  { m with
    responseTimes := dequeAppend m.windowSize m.responseTimes responseTime
    requestTimestamps := dequeAppend m.windowSize m.requestTimestamps now
    counters :=
      let c := bump m.counters "total_requests"
      let c := bump c ("intent_" ++ intent)
      if success then bump c "successful_requests" else bump c "failed_requests" }

/-- `MetricsCollector.record_error(error_type, severity)` — defined in
the source but, notably, never called anywhere in the repository. -/
def record_error (m : MetricsCollector) (errorType severityName : String) :
    MetricsCollector :=
  { m with
    counters :=
      let c := bump m.counters ("error_" ++ errorType)
      let c := bump c ("severity_" ++ severityName)
      bump c "total_errors" }

/-- The fields of `get_metrics_summary()` that the claims observe. -/
structure MetricsSummary where
  uptimeSeconds : Rat
  cpuUsage : Rat
  memoryUsage : Rat
  requestsTotal : Nat
  requestsSuccessful : Nat
  requestsFailed : Nat
  requestsPerMinute : Nat
  avgResponseTime : Rat
  errorsTotal : Nat
  errorsRate : Rat
deriving DecidableEq

/-- `MetricsCollector.get_metrics_summary()` at clock value `now`. -/
def get_metrics_summary (m : MetricsCollector) (now : Rat) : MetricsSummary :=
  let recent := m.requestTimestamps.filter (fun t => now - t < 60)
  { uptimeSeconds := now - m.startTime
    cpuUsage := (m.cpuUsage.getLast?).getD 0
    memoryUsage := (m.memoryUsage.getLast?).getD 0
    requestsTotal := m.counters "total_requests"
    requestsSuccessful := m.counters "successful_requests"
    requestsFailed := m.counters "failed_requests"
    requestsPerMinute := recent.length
    avgResponseTime :=
      if m.responseTimes.length = 0 then 0
      else m.responseTimes.sum / (m.responseTimes.length : Rat)
    errorsTotal := m.counters "total_errors"
    errorsRate := (m.counters "total_errors" : Rat) / (max (m.counters "total_requests") 1 : Nat) }

/-- One `record_request` call, for reasoning about call sequences. -/
structure RecordEv where
  now : Rat
  intent : String
  responseTime : Rat
  success : Bool

def applyRecords (m : MetricsCollector) (evs : List RecordEv) : MetricsCollector :=
  List.foldl (fun acc e => record_request acc e.now e.intent e.responseTime e.success) m evs

/-! ## PerformanceMonitor (`monitoring.py`) -/

structure ComponentSample where
  duration : Rat
  timestamp : Rat
deriving DecidableEq

/-- `PerformanceMonitor` state: `component_metrics`, a
`defaultdict(list)` from component name to its samples. -/
structure PerformanceMonitor where
  componentMetrics : String → List ComponentSample

def PerformanceMonitor.fresh : PerformanceMonitor := ⟨fun _ => []⟩

/-- `PerformanceMonitor.record_component_time`: append, then trim to the
last 100 entries. -/
def record_component_time (p : PerformanceMonitor) (name : String)
    (duration timestamp : Rat) : PerformanceMonitor :=
  ⟨fun k =>
    if k = name then
      let l := p.componentMetrics name ++ [⟨duration, timestamp⟩]
      if l.length > 100 then l.drop (l.length - 100) else l
    else p.componentMetrics k⟩

/-! ## Rate limiter (`api/main.py`, `rate_limit_check`) -/

/-- The configuration fields `rate_limit_check` reads
(`config.api_key_required` gates the whole check;
`config.max_requests_per_minute` is the threshold). -/
structure RateConfig where
  apiKeyRequired : Bool
  maxRequestsPerMinute : Nat

/-- The module-level `request_times` dict, as a total function from
identity to its timestamp list (a missing key behaves as `[]`: the
source initialises absent identities to `[]` before use). -/
def RateTable := String → List Rat

/-- Outcome of `rate_limit_check`: the updated `request_times` table and
whether the request was admitted (`false` models the raised
`HTTPException(429)`). -/
structure RateOutcome where
  table : RateTable
  admitted : Bool

/-- `rate_limit_check(request)` at clock value `now`, for the caller
identity `userId?` (`None` falls back to the shared `"anonymous"`
bucket). Skipped entirely when `api_key_required` is off. On a check:
prune to timestamps with `now - t < 60`, reject (writing back only the
pruned list) when the remaining count reaches the threshold, otherwise
append `now` and admit. -/
def rate_limit_check (cfg : RateConfig) (tbl : RateTable)
    (userId? : Option String) (now : Rat) : RateOutcome :=
  if !cfg.apiKeyRequired then
    ⟨tbl, true⟩
  else
    let uid := userId?.getD "anonymous"
    let pruned := (tbl uid).filter (fun t => now - t < 60)
    if pruned.length ≥ cfg.maxRequestsPerMinute then
      ⟨fun k => if k = uid then pruned else tbl k, false⟩
    else
      ⟨fun k => if k = uid then pruned ++ [now] else tbl k, true⟩

/-! ## Router (`nodes/router.py`) -/

/-- Whether every character of the list is a decimal digit. -/
def allDigits (cs : List Char) : Bool :=
  cs.all (fun c => c.isDigit)

/-- Numeric value of a digit list. -/
def digitsVal (cs : List Char) : Nat :=
  cs.foldl (fun acc c => acc * 10 + (c.toNat - 48)) 0

/-- Model of Python `float(s)` on the decimal literals the classifier
format uses: optional surrounding whitespace, an optional sign, then
digits with at most one decimal point (at least one digit overall).
`inf`/`nan`/exponent forms are outside the modelled fragment. -/
def parseFloat? (s : String) : Option Rat :=
  let cs := trimChars s.data
  let (neg, body) :=
    match cs with
    | '-' :: rest => (true, rest)
    | '+' :: rest => (false, rest)
    | _ => (false, cs)
  let mag? : Option Rat :=
    match splitOnChar '.' body with
    | [w] =>
      if w ≠ [] ∧ allDigits w then some (mkRat (digitsVal w) 1) else none
    | [w, f] =>
      -- the value of `w.f` is (digits of w followed by those of f) / 10 ^ |f|
      if (w ≠ [] ∨ f ≠ []) ∧ allDigits w ∧ allDigits f then
        some (mkRat (digitsVal (w ++ f)) (10 ^ f.length))
      else none
    | _ => none
  mag?.map (fun q => if neg then -q else q)

/-- The `try` block of `router_node`: strip the reply, split on `"|"`,
require exactly two fields (the tuple unpacking), and parse the second
as a float. `none` models the `except` path. -/
def parsedReply? (content : String) : Option (String × Rat) :=
  match splitOnChar '|' (trimChars content.data) with
  | [i, c] => (parseFloat? ⟨c⟩).map (fun q => ((⟨i⟩ : String), q))
  | _ => none

/-- `router_node`, as a function of the classifier reply text: the
parsed `(intent, confidence)` pair, or the fallback
`("question_answering", 0.5)` when parsing raises. Returns the partial
state dict the node contributes. -/
def router_node (content : String) : Dict :=
  match parsedReply? content with
  | some (intent, confidence) => [("intent", .str intent), ("confidence", .rat confidence)]
  | none => [("intent", .str "question_answering"), ("confidence", .rat (mkRat 1 2))]

/-! ## Graph routing (`graph.py`) -/

/-- `route_decision(state)`: `state.get("intent", "question_answering")`
compared against the three specially mapped labels; everything else
(including non-string intents) routes to `"question_answerer"`. -/
def route_decision (state : Dict) : String :=
  let intent := (dictGet? state "intent").getD (.str "question_answering")
  if intent = .str "profile_analysis" then "profile_analyzer"
  else if intent = .str "portfolio_creation" then "portfolio_builder"
  else if intent = .str "market_research" then "market_researcher"
  else "question_answerer"

/-- The four stage node names wired into the graph. -/
def stageNames : List String :=
  ["profile_analyzer", "portfolio_builder", "market_researcher", "question_answerer"]

/-- One run of the compiled graph: entry point `router`, whose output is
merged into the state; the conditional edge dispatches `route_decision`
through the identity mapping to exactly one stage node; that stage's
output is merged and the run reaches `END`. Returns the final state and
the list of stage nodes executed (the router excluded). `routerOut` is
the partial dict the router node returns and `stages` gives each stage
node's partial output. -/
def graphRun (routerOut : Dict) (stages : String → Dict → Dict)
    (input : Dict) : Dict × List String :=
  let s1 := dictMerge input routerOut
  let target := route_decision s1
  (dictMerge s1 (stages target s1), [target])

/-! ## Production wrapper state (`enhanced_graph.py`, `monitoring.py`) -/

/-- The mutable state the production pipeline touches: the global
`metrics` collector, the global `performance` monitor, the global
`error_handler`, and `ProductionInvestmentGraph.request_count`. -/
structure ProdState where
  metrics : MetricsCollector
  perf : PerformanceMonitor
  handler : ErrorHandler
  requestCount : Nat

def ProdState.fresh : ProdState :=
  ⟨MetricsCollector.fresh 0, PerformanceMonitor.fresh, ErrorHandler.initial, 0⟩

/-- Behavior of `self.graph.invoke(enhanced_input)` on one call: either
the result dict or a raised exception. -/
inductive GraphOutcome
  | ok (result : Dict)
  | raise (e : PyError)
deriving DecidableEq

/-- Oracle values for one attempt of `invoke`: the outcome of the base
graph call and the wall-clock readings the attempt makes
(`start_time`, the duration measured by the `graph_execution` timer
with its timestamp, the computed `response_time`, and the
`time.time()` read inside `record_request`). -/
structure AttemptSpec where
  graphOutcome : GraphOutcome
  startTime : Rat
  graphDuration : Rat
  perfTimestamp : Rat
  responseTime : Rat
  recordTimestamp : Rat
deriving DecidableEq

/-- `ProductionInvestmentGraph._validate_input`. -/
def validate_input (d : Dict) : Option PyError :=
  match dictGet? d "user_message" with
  | none => some (mkValidationError "Missing required field: user_message")
  | some v =>
    match v with
    | .str s =>
      if (pyStrip s).length = 0 then
        some (mkValidationError "user_message cannot be empty")
      else if s.length > 1000 then
        some (mkValidationError "user_message too long (max 1000 characters)")
      else none
    | _ => some (mkValidationError "user_message must be a string")

/-- `f"req_{int(start_time)}_{self.request_count}"`. -/
def requestIdStr (startTime : Rat) (count : Nat) : String :=
  "req_" ++ toString startTime.floor ++ "_" ++ toString count

/-- The body of `ProductionInvestmentGraph.invoke` (the function the
decorator wraps), for one attempt: bump `request_count`, validate (a
failure raises into the `except` block, which records one failed
request and re-raises), otherwise run the graph inside the
`graph_execution` timer (whose `__exit__` appends a sample even when
the graph raises), record the request outcome, and on success attach
`request_id` and `response_time` to the result. -/
def invokeBody (inp : Dict) (spec : AttemptSpec) (st : ProdState) :
    ProdState × Except PyError Dict :=
  let count := st.requestCount + 1
  let requestId := requestIdStr spec.startTime count
  let st := { st with requestCount := count }
  match validate_input inp with
  | some e =>
    let st := { st with
      metrics := record_request st.metrics spec.recordTimestamp "error" spec.responseTime false }
    (st, .error e)
  | none =>
    let st := { st with
      perf := record_component_time st.perf "graph_execution" spec.graphDuration spec.perfTimestamp }
    match spec.graphOutcome with
    | .raise e =>
      let st := { st with
        metrics := record_request st.metrics spec.recordTimestamp "error" spec.responseTime false }
      (st, .error e)
    | .ok result =>
      let intent := pyStr ((dictGet? result "intent").getD (.str "unknown"))
      let st := { st with
        metrics := record_request st.metrics spec.recordTimestamp intent spec.responseTime true }
      let result := dictSet result "request_id" (.str requestId)
      let result := dictSet result "response_time" (.rat spec.responseTime)
      (st, .ok result)

/-- The error (if any) one attempt of the `invoke` body raises; it is
independent of the threaded state, which only influences the request
id of a successful result. -/
def attemptErr? (inp : Dict) (spec : AttemptSpec) : Option PyError :=
  match validate_input inp with
  | some e => some e
  | none =>
    match spec.graphOutcome with
    | .raise e => some e
    | .ok _ => none

/-- The successful result of one attempt of the `invoke` body, given
the `request_count` value after that attempt's increment. -/
def attemptSuccess (d : Dict) (spec : AttemptSpec) (count : Nat) : Dict :=
  dictSet (dictSet d "request_id" (.str (requestIdStr spec.startTime count)))
    "response_time" (.rat spec.responseTime)

/-- The value `last_exception` holds after the wrapper's loop catches
the errors `caught` (in order) starting from `last`: validation errors
never update it, every other error overwrites it. -/
def lastNonVal (last : Option PyError) (caught : List PyError) : Option PyError :=
  caught.foldl (fun acc e => if e.cls = .validationError then acc else some e) last

/-! ## Retry/fallback executor (`error_handling.py`, `with_error_handling`) -/

/-- What the `for attempt in range(retries + 1)` loop of the wrapper
produced: the state after all attempts, how the loop ended (`.ok` on a
`return`, `.error last_exception` when the loop broke or ran out), the
number of attempts made, and the errors caught in order. -/
structure LoopOut (α : Type) where
  st : ProdState
  exit : Except (Option PyError) α
  attempts : Nat
  caught : List PyError

/-- The wrapper's attempt loop, mirroring the four `except` clauses:
`ModelTimeoutError` (exponential backoff), `DataFetchError` (constant
backoff), `ValidationError` (break without setting `last_exception`),
and the generic `except Exception` (constant backoff). The `sleep`
calls affect no modelled state. `remaining` is the number of loop
iterations `range(retries + 1)` still offers. -/
def wehLoop (retries : Nat) (body : Nat → ProdState → ProdState × Except PyError α) :
    (attempt remaining : Nat) → Option PyError → ProdState → LoopOut α
  | _, 0, last, st => ⟨st, .error last, 0, []⟩
  | attempt, remaining + 1, last, st =>
    match body attempt st with
    | (st1, .ok a) => ⟨st1, .ok a, 1, []⟩
    | (st1, .error e) =>
      match e.cls with
      | .modelTimeoutError =>
        let st2 := { st1 with handler := log_error st1.handler e }
        if attempt < retries then
          let rest := wehLoop retries body (attempt + 1) remaining (some e) st2
          ⟨rest.st, rest.exit, rest.attempts + 1, e :: rest.caught⟩
        else ⟨st2, .error (some e), 1, [e]⟩
      | .dataFetchError =>
        let st2 := { st1 with handler := log_error st1.handler e }
        if attempt < retries then
          let rest := wehLoop retries body (attempt + 1) remaining (some e) st2
          ⟨rest.st, rest.exit, rest.attempts + 1, e :: rest.caught⟩
        else ⟨st2, .error (some e), 1, [e]⟩
      | .validationError =>
        -- the source logs the error and breaks without updating `last_exception`
        let st2 := { st1 with handler := log_error st1.handler e }
        ⟨st2, .error last, 1, [e]⟩
      | _ =>
        let st2 := { st1 with handler := log_error st1.handler e }
        if attempt < retries then
          let rest := wehLoop retries body (attempt + 1) remaining (some e) st2
          ⟨rest.st, rest.exit, rest.attempts + 1, e :: rest.caught⟩
        else ⟨st2, .error (some e), 1, [e]⟩

/-- The caller-visible resolution of a wrapped call. `raisedNone`
models the `raise last_exception` statement executing with
`last_exception` still `None` (in Python a `TypeError`, not the
original error). -/
inductive WrapOutcome (α : Type)
  | success (a : α)
  | fallbackUsed (fb : Dict)
  | raised (e : PyError)
  | raisedNone
deriving DecidableEq

structure RunOut (α : Type) where
  st : ProdState
  outcome : WrapOutcome α
  attempts : Nat
  caught : List PyError

/-- `with_error_handling(retries, delay, fallback_response)` applied to
`body`. After the loop, `if fallback_response:` is Python truthiness on
an `Optional[Dict]`: `None` and the empty dict both fail it. -/
def with_error_handling (retries : Nat) (fallback : Option Dict)
    (body : Nat → ProdState → ProdState × Except PyError α)
    (st : ProdState) : RunOut α :=
  let lo := wehLoop retries body 0 (retries + 1) none st
  match lo.exit with
  | .ok a => ⟨lo.st, .success a, lo.attempts, lo.caught⟩
  | .error last =>
    let raisePath : WrapOutcome α :=
      match last with
      | some e => .raised e
      | none => .raisedNone
    match fallback with
    | some fb => ⟨lo.st, if fb.isEmpty then raisePath else .fallbackUsed fb, lo.attempts, lo.caught⟩
    | none => ⟨lo.st, raisePath, lo.attempts, lo.caught⟩

/-- The fallback dict configured on `ProductionInvestmentGraph.invoke`. -/
def prodFallback : Dict :=
  [("response", .str "I apologize, but I'm experiencing technical difficulties. Please try again in a moment."),
   ("intent", .str "error"),
   ("confidence", .rat (mkRat 0 1))]

/-- `ProductionInvestmentGraph.invoke`: the body wrapped by
`with_error_handling(retries = 2, delay = 1.0, fallback_response = ...)`,
with the per-attempt oracle `env`. -/
def prodInvoke (inp : Dict) (env : Nat → AttemptSpec) (st : ProdState) : RunOut Dict :=
  with_error_handling 2 (some prodFallback) (fun n s => invokeBody inp (env n) s) st

/-! ## Health status (`enhanced_graph.py`, `get_health_status`) -/

/-- Per-component entry of `PerformanceMonitor.get_component_stats()`. -/
structure ComponentStats where
  count : Nat
  avgDuration : Rat
  minDuration : Rat
  maxDuration : Rat
  lastDuration : Rat
deriving DecidableEq

/-- `get_component_stats()`: components with no recorded measurements
are omitted (`none`), not reported as zero. -/
def get_component_stats (p : PerformanceMonitor) (component : String) :
    Option ComponentStats :=
  let ds := (p.componentMetrics component).map (fun m => m.duration)
  if ds = [] then none
  else
    some
      { count := ds.length
        avgDuration := ds.sum / (ds.length : Rat)
        minDuration := (ds.min?).getD 0
        maxDuration := (ds.max?).getD 0
        lastDuration := (ds.getLast?).getD 0 }

/-- The dict `get_health_status` returns. -/
structure HealthStatus where
  status : String
  timestamp : Rat
  uptime : Rat
  requestsProcessed : Nat
  errorRate : Rat
  avgResponseTime : Rat
  systemCpu : Rat
  systemMemory : Rat
  components : String → Option ComponentStats

/-- The built-in probe request `get_health_status` feeds to `invoke`. -/
def testRequestInput : Dict :=
  [("user_message", .str "What is compound interest?"),
   ("conversation_history", .emptyList)]

/-- `ProductionInvestmentGraph.get_health_status`: runs the full
production `invoke` on the probe request (all its side effects
included), judges health from the returned dict's `"intent"` (a raised
error lands in the bare `except`), then reports the metrics summary of
the post-probe state. `now` is the `time.time()` read for the report. -/
def get_health_status (st : ProdState) (env : Nat → AttemptSpec) (now : Rat) :
    ProdState × HealthStatus :=
  let r := prodInvoke testRequestInput env st
  let apiHealthy : Bool :=
    match r.outcome with
    | .success d => decide ((dictGet? d "intent") ≠ some (.str "error"))
    | .fallbackUsed fb => decide ((dictGet? fb "intent") ≠ some (.str "error"))
    | .raised _ => false
    | .raisedNone => false
  let summary := get_metrics_summary r.st.metrics now
  (r.st,
   { status := if apiHealthy then "healthy" else "unhealthy"
     timestamp := now
     uptime := summary.uptimeSeconds
     requestsProcessed := summary.requestsTotal
     errorRate := summary.errorsRate
     avgResponseTime := summary.avgResponseTime
     systemCpu := summary.cpuUsage
     systemMemory := summary.memoryUsage
     components := get_component_stats r.st.perf })

end InvestmentAssistant

namespace InvestmentAssistant

/-! # Theorems -/

/-! ## Shared helper lemmas -/

/-- Two appended strings differ when their first components differ on a
common prefix length. -/
lemma append_ne_append_of_take (n : Nat) (p q s t : String)
    (hp : n ≤ p.data.length) (hq : n ≤ q.data.length)
    (hne : p.data.take n ≠ q.data.take n) : p ++ s ≠ q ++ t := by
  intro h
  have h2 := congrArg String.data h
  rw [String.data_append, String.data_append] at h2
  have h3 := congrArg (List.take n) h2
  rw [List.take_append_of_le_length hp, List.take_append_of_le_length hq] at h3
  exact hne h3

lemma str_ne_append (k q t : String) (n : Nat)
    (hk : n ≤ k.data.length) (hq : n ≤ q.data.length)
    (hne : k.data.take n ≠ q.data.take n) : k ≠ q ++ t := by
  have h : k = k ++ "" := by simp
  rw [h]
  exact append_ne_append_of_take n k q "" t hk hq hne

/-- Value of the counters after `record_request`, at any key. -/
lemma counters_record_request (m : MetricsCollector) (now : Rat) (i : String)
    (rt : Rat) (s : Bool) (k : String) :
    (record_request m now i rt s).counters k =
      m.counters k
        + (if k = "total_requests" then 1 else 0)
        + (if k = "intent_" ++ i then 1 else 0)
        + (if s then (if k = "successful_requests" then 1 else 0)
           else (if k = "failed_requests" then 1 else 0)) := by
  cases s <;>
    simp only [record_request, if_true, if_false, Bool.false_eq_true, cond_false, cond_true,
      ite_false, ite_true, bump] <;>
    split <;> split <;> split <;> omega

lemma length_dequeAppend (ml : Nat) (xs : List Rat) (x : Rat) :
    (dequeAppend ml xs x).length = min (xs.length + 1) ml := by
  simp only [dequeAppend]
  split <;> rename_i h <;> simp at h ⊢ <;> omega

/-- Counter keys `record_request` never bumps are preserved. -/
lemma counters_record_request_untouched (m : MetricsCollector) (now : Rat) (i : String)
    (rt : Rat) (s : Bool) (k : String)
    (h1 : k ≠ "total_requests") (h2 : ∀ j, k ≠ "intent_" ++ j)
    (h3 : k ≠ "successful_requests") (h4 : k ≠ "failed_requests") :
    (record_request m now i rt s).counters k = m.counters k := by
  rw [counters_record_request]
  cases s <;> simp [h1, h2 i, h3, h4]

end InvestmentAssistant

namespace InvestmentAssistant

lemma wehLoop_rem_zero {α : Type} (r : Nat)
    (body : Nat → ProdState → ProdState × Except PyError α) (a : Nat)
    (last : Option PyError) (st : ProdState) :
    wehLoop r body a 0 last st = ⟨st, .error last, 0, []⟩ := rfl

lemma wehLoop_ok {α : Type} (r : Nat)
    (body : Nat → ProdState → ProdState × Except PyError α) (a rem : Nat)
    (last : Option PyError) (st st1 : ProdState) (x : α)
    (hb : body a st = (st1, .ok x)) :
    wehLoop r body a (rem + 1) last st = ⟨st1, .ok x, 1, []⟩ := by
  rw [wehLoop, hb]

lemma wehLoop_validation {α : Type} (r : Nat)
    (body : Nat → ProdState → ProdState × Except PyError α) (a rem : Nat)
    (last : Option PyError) (st st1 : ProdState) (e : PyError)
    (hb : body a st = (st1, .error e)) (hc : e.cls = .validationError) :
    wehLoop r body a (rem + 1) last st =
      ⟨{ st1 with handler := log_error st1.handler e }, .error last, 1, [e]⟩ := by
  rw [wehLoop, hb]
  rcases e with ⟨cls, msg, sev⟩
  cases cls <;> simp_all

lemma wehLoop_nonval {α : Type} (r : Nat)
    (body : Nat → ProdState → ProdState × Except PyError α) (a rem : Nat)
    (last : Option PyError) (st st1 : ProdState) (e : PyError)
    (hb : body a st = (st1, .error e)) (hc : e.cls ≠ .validationError) :
    wehLoop r body a (rem + 1) last st =
      (if a < r then
        let rest := wehLoop r body (a + 1) rem (some e)
          { st1 with handler := log_error st1.handler e }
        ⟨rest.st, rest.exit, rest.attempts + 1, e :: rest.caught⟩
      else ⟨{ st1 with handler := log_error st1.handler e }, .error (some e), 1, [e]⟩) := by
  rw [wehLoop, hb]
  rcases e with ⟨cls, msg, sev⟩
  cases cls <;> simp_all

end InvestmentAssistant

namespace InvestmentAssistant

/-! ## invokeBody characterization -/

lemma invokeBody_handler (inp : Dict) (spec : AttemptSpec) (st : ProdState) :
    (invokeBody inp spec st).1.handler = st.handler := by
  unfold invokeBody
  cases hv : validate_input inp <;> cases hg : spec.graphOutcome <;> simp [hv, hg]

lemma invokeBody_requestCount (inp : Dict) (spec : AttemptSpec) (st : ProdState) :
    (invokeBody inp spec st).1.requestCount = st.requestCount + 1 := by
  unfold invokeBody
  cases hv : validate_input inp <;> cases hg : spec.graphOutcome <;> simp [hv, hg]

lemma invokeBody_windowSize (inp : Dict) (spec : AttemptSpec) (st : ProdState) :
    (invokeBody inp spec st).1.metrics.windowSize = st.metrics.windowSize := by
  unfold invokeBody record_request
  cases hv : validate_input inp <;> cases hg : spec.graphOutcome <;> simp [hv, hg]

lemma invokeBody_responseTimes (inp : Dict) (spec : AttemptSpec) (st : ProdState) :
    (invokeBody inp spec st).1.metrics.responseTimes =
      dequeAppend st.metrics.windowSize st.metrics.responseTimes spec.responseTime := by
  unfold invokeBody record_request
  cases hv : validate_input inp <;> cases hg : spec.graphOutcome <;> simp [hv, hg]

lemma invokeBody_requestTimestamps (inp : Dict) (spec : AttemptSpec) (st : ProdState) :
    (invokeBody inp spec st).1.metrics.requestTimestamps =
      dequeAppend st.metrics.windowSize st.metrics.requestTimestamps spec.recordTimestamp := by
  unfold invokeBody record_request
  cases hv : validate_input inp <;> cases hg : spec.graphOutcome <;> simp [hv, hg]

lemma invokeBody_total_requests (inp : Dict) (spec : AttemptSpec) (st : ProdState) :
    (invokeBody inp spec st).1.metrics.counters "total_requests" =
      st.metrics.counters "total_requests" + 1 := by
  unfold invokeBody
  cases hv : validate_input inp <;> cases hg : spec.graphOutcome <;>
    simp [hv, hg, counters_record_request] <;>
    simp [str_ne_append "total_requests" "intent_" _ 1 (by decide) (by decide) (by decide)]

lemma invokeBody_counters_untouched (inp : Dict) (spec : AttemptSpec) (st : ProdState)
    (k : String)
    (h1 : k ≠ "total_requests") (h2 : ∀ j, k ≠ "intent_" ++ j)
    (h3 : k ≠ "successful_requests") (h4 : k ≠ "failed_requests") :
    (invokeBody inp spec st).1.metrics.counters k = st.metrics.counters k := by
  unfold invokeBody
  cases hv : validate_input inp <;> cases hg : spec.graphOutcome <;>
    simp [hv, hg, counters_record_request_untouched _ _ _ _ _ _ h1 h2 h3 h4]

lemma invokeBody_perf_valid (inp : Dict) (spec : AttemptSpec) (st : ProdState)
    (hv : validate_input inp = none) :
    (invokeBody inp spec st).1.perf =
      record_component_time st.perf "graph_execution" spec.graphDuration spec.perfTimestamp := by
  unfold invokeBody
  cases hg : spec.graphOutcome <;> simp [hv, hg]

lemma invokeBody_snd_err (inp : Dict) (spec : AttemptSpec) (st : ProdState) (e : PyError)
    (h : attemptErr? inp spec = some e) :
    (invokeBody inp spec st).2 = .error e := by
  unfold invokeBody
  unfold attemptErr? at h
  cases hv : validate_input inp <;> rw [hv] at h <;>
    cases hg : spec.graphOutcome <;> simp [hg] at h ⊢ <;> simp [h]

lemma invokeBody_snd_ok (inp : Dict) (spec : AttemptSpec) (st : ProdState) (d : Dict)
    (hv : validate_input inp = none) (hg : spec.graphOutcome = .ok d) :
    (invokeBody inp spec st).2 = .ok (attemptSuccess d spec (st.requestCount + 1)) := by
  unfold invokeBody attemptSuccess
  simp [hv, hg]

end InvestmentAssistant

namespace InvestmentAssistant

/-- State effects of the wrapper loop around the `invoke` body, for any
oracle: the error handler accumulates exactly the caught errors (in
order), counter keys `record_request` never bumps are preserved, and
unless some attempt returned, `last_exception` resolves to the most
recent non-validation error among those caught. -/
lemma wehLoop_invoke_state (r : Nat) (inp : Dict) (env : Nat → AttemptSpec) :
    ∀ (rem a : Nat) (last : Option PyError) (st : ProdState),
      (wehLoop r (fun n s => invokeBody inp (env n) s) a rem last st).st.handler
        = List.foldl log_error st.handler
            (wehLoop r (fun n s => invokeBody inp (env n) s) a rem last st).caught ∧
      (∀ k, k ≠ "total_requests" → (∀ j, k ≠ "intent_" ++ j) →
        k ≠ "successful_requests" → k ≠ "failed_requests" →
        (wehLoop r (fun n s => invokeBody inp (env n) s) a rem last st).st.metrics.counters k
          = st.metrics.counters k) ∧
      ((wehLoop r (fun n s => invokeBody inp (env n) s) a rem last st).exit
          = .error (lastNonVal last
              (wehLoop r (fun n s => invokeBody inp (env n) s) a rem last st).caught) ∨
        ∃ x, (wehLoop r (fun n s => invokeBody inp (env n) s) a rem last st).exit = .ok x) := by
  intro rem
  induction rem with
  | zero =>
    intro a last st
    simp [wehLoop_rem_zero, lastNonVal]
  | succ rem ih =>
    intro a last st
    rcases hb : invokeBody inp (env a) st with ⟨st1, ex⟩
    have hh : st1.handler = st.handler := by
      have h0 := invokeBody_handler inp (env a) st; rw [hb] at h0; exact h0
    have hc : ∀ k, k ≠ "total_requests" → (∀ j, k ≠ "intent_" ++ j) →
        k ≠ "successful_requests" → k ≠ "failed_requests" →
        st1.metrics.counters k = st.metrics.counters k := by
      intro k h1 h2 h3 h4
      have h0 := invokeBody_counters_untouched inp (env a) st k h1 h2 h3 h4
      rw [hb] at h0; exact h0
    cases ex with
    | ok x =>
      rw [wehLoop_ok r _ a rem last st st1 x hb]
      exact ⟨by simp [hh], fun k h1 h2 h3 h4 => hc k h1 h2 h3 h4, Or.inr ⟨x, rfl⟩⟩
    | error e =>
      by_cases hcv : e.cls = PyErrClass.validationError
      · rw [wehLoop_validation r _ a rem last st st1 e hb hcv]
        refine ⟨by simp [hh], fun k h1 h2 h3 h4 => hc k h1 h2 h3 h4, Or.inl ?_⟩
        simp [lastNonVal, hcv]
      · rw [wehLoop_nonval r _ a rem last st st1 e hb hcv]
        by_cases har : a < r
        · simp only [if_pos har]
          obtain ⟨ih1, ih2, ih3⟩ := ih (a + 1) (some e)
            { st1 with handler := log_error st1.handler e }
          refine ⟨?_, ?_, ?_⟩
          · dsimp only
            rw [List.foldl_cons, ← hh]
            exact ih1
          · intro k h1 h2 h3 h4
            exact (ih2 k h1 h2 h3 h4).trans (hc k h1 h2 h3 h4)
          · have hl : ∀ c, lastNonVal last (e :: c) = lastNonVal (some e) c := by
              intro c; simp [lastNonVal, hcv]
            rcases ih3 with h | ⟨x, hx⟩
            · left; dsimp only; rw [hl]; exact h
            · right; exact ⟨x, hx⟩
        · simp only [if_neg har]
          refine ⟨by simp [hh], fun k h1 h2 h3 h4 => hc k h1 h2 h3 h4, Or.inl ?_⟩
          simp [lastNonVal, hcv]

end InvestmentAssistant

namespace InvestmentAssistant

lemma foldl_log_error_logged (h0 : ErrorHandler) (es : List PyError) :
    (List.foldl log_error h0 es).logged
      = h0.logged ++ es.map (fun e => (e, logLevelOf e)) := by
  induction es generalizing h0 with
  | nil => simp
  | cons e es ih => simp [log_error, ih]

lemma foldl_log_error_counts (h0 : ErrorHandler) (es : List PyError) (k : String) :
    (List.foldl log_error h0 es).errorCounts k
      = h0.errorCounts k + (es.map errorKey).count k := by
  induction es generalizing h0 with
  | nil => simp
  | cons e es ih =>
    rw [List.foldl_cons, ih, List.map_cons, List.count_cons]
    simp only [log_error, bump, beq_iff_eq]
    by_cases hk : k = errorKey e
    · simp [hk]
      omega
    · rw [if_neg hk, if_neg (fun h => hk h.symm)]
      omega

/-- When every attempt raises, the loop exits with
`last_exception = lastNonVal` of the caught errors. -/
lemma wehLoop_invoke_allfail (r : Nat) (inp : Dict) (env : Nat → AttemptSpec)
    (hfail : ∀ n, attemptErr? inp (env n) ≠ none) :
    ∀ (rem a : Nat) (last : Option PyError) (st : ProdState),
      (wehLoop r (fun n s => invokeBody inp (env n) s) a rem last st).exit
        = .error (lastNonVal last
            (wehLoop r (fun n s => invokeBody inp (env n) s) a rem last st).caught) := by
  intro rem
  induction rem with
  | zero => intro a last st; simp [wehLoop_rem_zero, lastNonVal]
  | succ rem ih =>
    intro a last st
    rcases he : attemptErr? inp (env a) with _ | e
    · exact absurd he (hfail a)
    rcases hb : invokeBody inp (env a) st with ⟨st1, ex⟩
    have hex : ex = .error e := by
      have h0 := invokeBody_snd_err inp (env a) st e he
      rw [hb] at h0; exact h0
    subst hex
    by_cases hcv : e.cls = PyErrClass.validationError
    · rw [wehLoop_validation r _ a rem last st st1 e hb hcv]
      simp [lastNonVal, hcv]
    · rw [wehLoop_nonval r _ a rem last st st1 e hb hcv]
      have hl : ∀ c, lastNonVal last (e :: c) = lastNonVal (some e) c := by
        intro c; simp [lastNonVal, hcv]
      by_cases har : a < r
      · simp only [if_pos har]
        rw [hl]
        exact ih (a + 1) (some e) { st1 with handler := log_error st1.handler e }
      · simp only [if_neg har]
        simp [lastNonVal, hcv]

end InvestmentAssistant

namespace InvestmentAssistant

lemma invokeBody_fail_counters (inp : Dict) (spec : AttemptSpec) (st : ProdState)
    (e : PyError) (he : attemptErr? inp spec = some e) :
    (invokeBody inp spec st).1.metrics.counters "failed_requests"
        = st.metrics.counters "failed_requests" + 1 ∧
    (invokeBody inp spec st).1.metrics.counters "successful_requests"
        = st.metrics.counters "successful_requests" := by
  unfold invokeBody
  unfold attemptErr? at he
  have hne1 : ∀ j : String, ("failed_requests" : String) ≠ "intent_" ++ j :=
    fun j => str_ne_append _ _ _ 1 (by decide) (by decide) (by decide)
  have hne2 : ∀ j : String, ("successful_requests" : String) ≠ "intent_" ++ j :=
    fun j => str_ne_append _ _ _ 1 (by decide) (by decide) (by decide)
  cases hv : validate_input inp <;> rw [hv] at he
  · cases hg : spec.graphOutcome <;> rw [hg] at he
    · simp at he
    · simp [counters_record_request, hne1 "error", hne2 "error"]
  · simp [counters_record_request, hne1 "error", hne2 "error"]

lemma invokeBody_ok_counters (inp : Dict) (spec : AttemptSpec) (st : ProdState)
    (d : Dict) (hv : validate_input inp = none) (hg : spec.graphOutcome = .ok d) :
    (invokeBody inp spec st).1.metrics.counters "successful_requests"
        = st.metrics.counters "successful_requests" + 1 ∧
    (invokeBody inp spec st).1.metrics.counters "failed_requests"
        = st.metrics.counters "failed_requests" := by
  unfold invokeBody
  have hne1 : ∀ j : String, ("failed_requests" : String) ≠ "intent_" ++ j :=
    fun j => str_ne_append _ _ _ 1 (by decide) (by decide) (by decide)
  have hne2 : ∀ j : String, ("successful_requests" : String) ≠ "intent_" ++ j :=
    fun j => str_ne_append _ _ _ 1 (by decide) (by decide) (by decide)
  simp [hv, hg, counters_record_request, hne1 _, hne2 _]

/-- The loop on a valid input whose graph call fails `k` times with
non-validation errors and then succeeds: `k + 1` attempts, the
decorated success value, and one request record per attempt. -/
lemma wehLoop_fail_then_ok (r : Nat) (inp : Dict) (env : Nat → AttemptSpec) (d : Dict)
    (hv : validate_input inp = none) :
    ∀ (k a rem : Nat) (last : Option PyError) (st : ProdState),
      k < rem → a + k ≤ r →
      (∀ n, n < k → ∃ e, (env (a + n)).graphOutcome = .raise e ∧
        e.cls ≠ PyErrClass.validationError) →
      (env (a + k)).graphOutcome = .ok d →
      (wehLoop r (fun n s => invokeBody inp (env n) s) a rem last st).attempts = k + 1 ∧
      (wehLoop r (fun n s => invokeBody inp (env n) s) a rem last st).exit
        = .ok (attemptSuccess d (env (a + k)) (st.requestCount + k + 1)) ∧
      (wehLoop r (fun n s => invokeBody inp (env n) s) a rem last st).st.metrics.counters
          "total_requests" = st.metrics.counters "total_requests" + (k + 1) ∧
      (wehLoop r (fun n s => invokeBody inp (env n) s) a rem last st).st.metrics.counters
          "failed_requests" = st.metrics.counters "failed_requests" + k ∧
      (wehLoop r (fun n s => invokeBody inp (env n) s) a rem last st).st.metrics.counters
          "successful_requests" = st.metrics.counters "successful_requests" + 1 := by
  intro k
  induction k with
  | zero =>
    intro a rem last st hrem har hfail hok
    rcases rem with _ | rem
    · omega
    rcases hb : invokeBody inp (env a) st with ⟨st1, ex⟩
    rw [Nat.add_zero] at hok
    have hex : ex = .ok (attemptSuccess d (env a) (st.requestCount + 1)) := by
      have h0 := invokeBody_snd_ok inp (env a) st d hv hok
      rw [hb] at h0; exact h0
    subst hex
    rw [wehLoop_ok r _ a rem last st st1 _ hb]
    have ht : st1.metrics.counters "total_requests"
        = st.metrics.counters "total_requests" + 1 := by
      have h0 := invokeBody_total_requests inp (env a) st; rw [hb] at h0; exact h0
    have hsf := invokeBody_ok_counters inp (env a) st d hv hok
    rw [hb] at hsf
    exact ⟨rfl, by simp, by simpa using ht, by simpa using hsf.2,
      by simpa using hsf.1⟩
  | succ k ih =>
    intro a rem last st hrem har hfail hok
    rcases rem with _ | rem
    · omega
    obtain ⟨e, hge, hcv⟩ := hfail 0 (Nat.succ_pos k)
    rw [Nat.add_zero] at hge
    have he : attemptErr? inp (env a) = some e := by
      unfold attemptErr?
      rw [hv, hge]
    rcases hb : invokeBody inp (env a) st with ⟨st1, ex⟩
    have hex : ex = .error e := by
      have h0 := invokeBody_snd_err inp (env a) st e he
      rw [hb] at h0; exact h0
    subst hex
    have harr : a < r := by omega
    rw [wehLoop_nonval r _ a rem last st st1 e hb hcv]
    simp only [if_pos harr]
    have hfail2 : ∀ n, n < k → ∃ e2, (env (a + 1 + n)).graphOutcome = .raise e2 ∧
        e2.cls ≠ PyErrClass.validationError := by
      intro n hn
      have hx : a + 1 + n = a + (n + 1) := by omega
      rw [hx]
      exact hfail (n + 1) (by omega)
    have hok2 : (env (a + 1 + k)).graphOutcome = .ok d := by
      have hx : a + 1 + k = a + (k + 1) := by omega
      rw [hx]; exact hok
    obtain ⟨ih1, ih2, ih3, ih4, ih5⟩ := ih (a + 1) rem (some e)
      { st1 with handler := log_error st1.handler e } (by omega) (by omega) hfail2 hok2
    have hrc : st1.requestCount = st.requestCount + 1 := by
      have h0 := invokeBody_requestCount inp (env a) st; rw [hb] at h0; exact h0
    have ht : st1.metrics.counters "total_requests"
        = st.metrics.counters "total_requests" + 1 := by
      have h0 := invokeBody_total_requests inp (env a) st; rw [hb] at h0; exact h0
    have hsf := invokeBody_fail_counters inp (env a) st e he
    rw [hb] at hsf
    have hsf1 : st1.metrics.counters "failed_requests"
        = st.metrics.counters "failed_requests" + 1 := by simpa using hsf.1
    have hsf2 : st1.metrics.counters "successful_requests"
        = st.metrics.counters "successful_requests" := by simpa using hsf.2
    refine ⟨by simpa using ih1, ?_, ?_, ?_, ?_⟩
    · have hx : a + 1 + k = a + (k + 1) := by omega
      have hy : st1.requestCount + k + 1 = st.requestCount + (k + 1) + 1 := by omega
      rw [hx, hy] at ih2
      simpa using ih2
    · have hz : st1.metrics.counters "total_requests" + (k + 1)
          = st.metrics.counters "total_requests" + (k + 1 + 1) := by omega
      rw [hz] at ih3
      simpa using ih3
    · have hz : st1.metrics.counters "failed_requests" + k
          = st.metrics.counters "failed_requests" + (k + 1) := by omega
      rw [hz] at ih4
      simpa using ih4
    · have hz : st1.metrics.counters "successful_requests" + 1
          = st.metrics.counters "successful_requests" + 1 := by rw [hsf2]
      rw [hz] at ih5
      simpa using ih5

end InvestmentAssistant

namespace InvestmentAssistant

lemma length_record_component_time (p : PerformanceMonitor) (name : String)
    (dur ts : Rat) :
    ((record_component_time p name dur ts).componentMetrics name).length
      = min ((p.componentMetrics name).length + 1) 100 := by
  simp only [record_component_time]
  dsimp only
  rw [if_pos trivial]
  split <;> rename_i h <;> simp_all <;> omega

/-- Each loop attempt increments `total_requests` by one, valid input
or not. -/
lemma wehLoop_total_requests (r : Nat) (inp : Dict) (env : Nat → AttemptSpec) :
    ∀ (rem a : Nat) (last : Option PyError) (st : ProdState),
      (wehLoop r (fun n s => invokeBody inp (env n) s) a rem last st).st.metrics.counters
          "total_requests"
        = st.metrics.counters "total_requests"
            + (wehLoop r (fun n s => invokeBody inp (env n) s) a rem last st).attempts := by
  intro rem
  induction rem with
  | zero => intro a last st; rw [wehLoop_rem_zero]; rfl
  | succ rem ih =>
    intro a last st
    rcases hb : invokeBody inp (env a) st with ⟨st1, ex⟩
    have ht : st1.metrics.counters "total_requests"
        = st.metrics.counters "total_requests" + 1 := by
      have h0 := invokeBody_total_requests inp (env a) st; rw [hb] at h0; exact h0
    cases ex with
    | ok x =>
      rw [wehLoop_ok r _ a rem last st st1 x hb]
      simpa using ht
    | error e =>
      by_cases hcv : e.cls = PyErrClass.validationError
      · rw [wehLoop_validation r _ a rem last st st1 e hb hcv]
        simpa using ht
      · rw [wehLoop_nonval r _ a rem last st st1 e hb hcv]
        by_cases har : a < r
        · simp only [if_pos har]
          have hx := ih (a + 1) (some e) { st1 with handler := log_error st1.handler e }
          dsimp only at hx ⊢
          omega
        · simp only [if_neg har]
          simpa using ht

end InvestmentAssistant

namespace InvestmentAssistant

lemma wehLoop_attempts_pos {α : Type} (r : Nat)
    (body : Nat → ProdState → ProdState × Except PyError α) :
    ∀ (rem a : Nat) (last : Option PyError) (st : ProdState), 1 ≤ rem →
      1 ≤ (wehLoop r body a rem last st).attempts := by
  intro rem
  induction rem with
  | zero => intro a last st h; omega
  | succ rem ih =>
    intro a last st h
    rcases hb : body a st with ⟨st1, ex⟩
    cases ex with
    | ok x => rw [wehLoop_ok r body a rem last st st1 x hb]
    | error e =>
      by_cases hcv : e.cls = PyErrClass.validationError
      · rw [wehLoop_validation r body a rem last st st1 e hb hcv]
      · rw [wehLoop_nonval r body a rem last st st1 e hb hcv]
        by_cases har : a < r
        · simp only [if_pos har]
          exact Nat.succ_le_succ (Nat.zero_le _)
        · simp only [if_neg har]
          exact le_refl 1

lemma wehLoop_requestCount (r : Nat) (inp : Dict) (env : Nat → AttemptSpec) :
    ∀ (rem a : Nat) (last : Option PyError) (st : ProdState),
      (wehLoop r (fun n s => invokeBody inp (env n) s) a rem last st).st.requestCount
        = st.requestCount
            + (wehLoop r (fun n s => invokeBody inp (env n) s) a rem last st).attempts := by
  intro rem
  induction rem with
  | zero => intro a last st; rw [wehLoop_rem_zero]; rfl
  | succ rem ih =>
    intro a last st
    rcases hb : invokeBody inp (env a) st with ⟨st1, ex⟩
    have ht : st1.requestCount = st.requestCount + 1 := by
      have h0 := invokeBody_requestCount inp (env a) st; rw [hb] at h0; exact h0
    cases ex with
    | ok x =>
      rw [wehLoop_ok r _ a rem last st st1 x hb]
      simpa using ht
    | error e =>
      by_cases hcv : e.cls = PyErrClass.validationError
      · rw [wehLoop_validation r _ a rem last st st1 e hb hcv]
        simpa using ht
      · rw [wehLoop_nonval r _ a rem last st st1 e hb hcv]
        by_cases har : a < r
        · simp only [if_pos har]
          have hx := ih (a + 1) (some e) { st1 with handler := log_error st1.handler e }
          dsimp only at hx ⊢
          omega
        · simp only [if_neg har]
          simpa using ht

lemma wehLoop_windowSize (r : Nat) (inp : Dict) (env : Nat → AttemptSpec) :
    ∀ (rem a : Nat) (last : Option PyError) (st : ProdState),
      (wehLoop r (fun n s => invokeBody inp (env n) s) a rem last st).st.metrics.windowSize
        = st.metrics.windowSize := by
  intro rem
  induction rem with
  | zero => intro a last st; rw [wehLoop_rem_zero]
  | succ rem ih =>
    intro a last st
    rcases hb : invokeBody inp (env a) st with ⟨st1, ex⟩
    have ht : st1.metrics.windowSize = st.metrics.windowSize := by
      have h0 := invokeBody_windowSize inp (env a) st; rw [hb] at h0; exact h0
    cases ex with
    | ok x =>
      rw [wehLoop_ok r _ a rem last st st1 x hb]
      simpa using ht
    | error e =>
      by_cases hcv : e.cls = PyErrClass.validationError
      · rw [wehLoop_validation r _ a rem last st st1 e hb hcv]
        simpa using ht
      · rw [wehLoop_nonval r _ a rem last st st1 e hb hcv]
        by_cases har : a < r
        · simp only [if_pos har]
          have hx := ih (a + 1) (some e) { st1 with handler := log_error st1.handler e }
          dsimp only at hx ⊢
          omega
        · simp only [if_neg har]
          simpa using ht

lemma wehLoop_responseTimes_len (r : Nat) (inp : Dict) (env : Nat → AttemptSpec) :
    ∀ (rem a : Nat) (last : Option PyError) (st : ProdState),
      (wehLoop r (fun n s => invokeBody inp (env n) s) a rem last st).st.metrics.responseTimes.length
        = if (wehLoop r (fun n s => invokeBody inp (env n) s) a rem last st).attempts = 0
          then st.metrics.responseTimes.length
          else min (st.metrics.responseTimes.length
              + (wehLoop r (fun n s => invokeBody inp (env n) s) a rem last st).attempts)
            st.metrics.windowSize := by
  intro rem
  induction rem with
  | zero => intro a last st; rw [wehLoop_rem_zero]; rfl
  | succ rem ih =>
    intro a last st
    rcases hb : invokeBody inp (env a) st with ⟨st1, ex⟩
    have hws : st1.metrics.windowSize = st.metrics.windowSize := by
      have h0 := invokeBody_windowSize inp (env a) st; rw [hb] at h0; exact h0
    have ht : st1.metrics.responseTimes.length
        = min (st.metrics.responseTimes.length + 1) st.metrics.windowSize := by
      have h0 := invokeBody_responseTimes inp (env a) st; rw [hb] at h0
      rw [h0, length_dequeAppend]
    cases ex with
    | ok x =>
      rw [wehLoop_ok r _ a rem last st st1 x hb]
      simp [ht]
    | error e =>
      by_cases hcv : e.cls = PyErrClass.validationError
      · rw [wehLoop_validation r _ a rem last st st1 e hb hcv]
        simp only
        rw [if_neg (by omega)]
        exact ht
      · rw [wehLoop_nonval r _ a rem last st st1 e hb hcv]
        by_cases har : a < r
        · simp only [if_pos har]
          have hx := ih (a + 1) (some e) { st1 with handler := log_error st1.handler e }
          have hw2 := wehLoop_windowSize r inp env rem (a + 1) (some e)
            { st1 with handler := log_error st1.handler e }
          dsimp only at hx hw2 ⊢
          rw [if_neg (by omega)]
          split at hx <;> omega
        · simp only [if_neg har]
          simp [ht]

lemma wehLoop_requestTimestamps_len (r : Nat) (inp : Dict) (env : Nat → AttemptSpec) :
    ∀ (rem a : Nat) (last : Option PyError) (st : ProdState),
      (wehLoop r (fun n s => invokeBody inp (env n) s) a rem last st).st.metrics.requestTimestamps.length
        = if (wehLoop r (fun n s => invokeBody inp (env n) s) a rem last st).attempts = 0
          then st.metrics.requestTimestamps.length
          else min (st.metrics.requestTimestamps.length
              + (wehLoop r (fun n s => invokeBody inp (env n) s) a rem last st).attempts)
            st.metrics.windowSize := by
  intro rem
  induction rem with
  | zero => intro a last st; rw [wehLoop_rem_zero]; rfl
  | succ rem ih =>
    intro a last st
    rcases hb : invokeBody inp (env a) st with ⟨st1, ex⟩
    have hws : st1.metrics.windowSize = st.metrics.windowSize := by
      have h0 := invokeBody_windowSize inp (env a) st; rw [hb] at h0; exact h0
    have ht : st1.metrics.requestTimestamps.length
        = min (st.metrics.requestTimestamps.length + 1) st.metrics.windowSize := by
      have h0 := invokeBody_requestTimestamps inp (env a) st; rw [hb] at h0
      rw [h0, length_dequeAppend]
    cases ex with
    | ok x =>
      rw [wehLoop_ok r _ a rem last st st1 x hb]
      simp [ht]
    | error e =>
      by_cases hcv : e.cls = PyErrClass.validationError
      · rw [wehLoop_validation r _ a rem last st st1 e hb hcv]
        simp only
        rw [if_neg (by omega)]
        exact ht
      · rw [wehLoop_nonval r _ a rem last st st1 e hb hcv]
        by_cases har : a < r
        · simp only [if_pos har]
          have hx := ih (a + 1) (some e) { st1 with handler := log_error st1.handler e }
          have hw2 := wehLoop_windowSize r inp env rem (a + 1) (some e)
            { st1 with handler := log_error st1.handler e }
          dsimp only at hx hw2 ⊢
          rw [if_neg (by omega)]
          split at hx <;> omega
        · simp only [if_neg har]
          simp [ht]

lemma wehLoop_perf_len (r : Nat) (inp : Dict) (env : Nat → AttemptSpec)
    (hv : validate_input inp = none) :
    ∀ (rem a : Nat) (last : Option PyError) (st : ProdState),
      ((wehLoop r (fun n s => invokeBody inp (env n) s) a rem last st).st.perf.componentMetrics
          "graph_execution").length
        = if (wehLoop r (fun n s => invokeBody inp (env n) s) a rem last st).attempts = 0
          then (st.perf.componentMetrics "graph_execution").length
          else min ((st.perf.componentMetrics "graph_execution").length
              + (wehLoop r (fun n s => invokeBody inp (env n) s) a rem last st).attempts) 100 := by
  intro rem
  induction rem with
  | zero => intro a last st; rw [wehLoop_rem_zero]; rfl
  | succ rem ih =>
    intro a last st
    rcases hb : invokeBody inp (env a) st with ⟨st1, ex⟩
    have ht : (st1.perf.componentMetrics "graph_execution").length
        = min ((st.perf.componentMetrics "graph_execution").length + 1) 100 := by
      have h0 := invokeBody_perf_valid inp (env a) st hv; rw [hb] at h0
      rw [h0, length_record_component_time]
    cases ex with
    | ok x =>
      rw [wehLoop_ok r _ a rem last st st1 x hb]
      simp [ht]
    | error e =>
      by_cases hcv : e.cls = PyErrClass.validationError
      · rw [wehLoop_validation r _ a rem last st st1 e hb hcv]
        simp only
        rw [if_neg (by omega)]
        exact ht
      · rw [wehLoop_nonval r _ a rem last st st1 e hb hcv]
        by_cases har : a < r
        · simp only [if_pos har]
          have hx := ih (a + 1) (some e) { st1 with handler := log_error st1.handler e }
          dsimp only at hx ⊢
          rw [if_neg (by omega)]
          split at hx <;> omega
        · simp only [if_neg har]
          simp [ht]

end InvestmentAssistant

namespace InvestmentAssistant

/-! ## Wrapper-level lemmas -/

lemma weh_components {α : Type} (retries : Nat) (fb : Option Dict)
    (body : Nat → ProdState → ProdState × Except PyError α) (st : ProdState) :
    (with_error_handling retries fb body st).st
        = (wehLoop retries body 0 (retries + 1) none st).st ∧
    (with_error_handling retries fb body st).attempts
        = (wehLoop retries body 0 (retries + 1) none st).attempts ∧
    (with_error_handling retries fb body st).caught
        = (wehLoop retries body 0 (retries + 1) none st).caught := by
  unfold with_error_handling
  cases h : (wehLoop retries body 0 (retries + 1) none st).exit <;>
    cases fb <;> simp [h]

lemma weh_outcome_ok {α : Type} (retries : Nat) (fb : Option Dict)
    (body : Nat → ProdState → ProdState × Except PyError α) (st : ProdState) (x : α)
    (h : (wehLoop retries body 0 (retries + 1) none st).exit = .ok x) :
    (with_error_handling retries fb body st).outcome = .success x := by
  unfold with_error_handling
  dsimp only
  rw [h]

lemma weh_outcome_exhausted_some {α : Type} (retries : Nat) (fb : Option Dict)
    (body : Nat → ProdState → ProdState × Except PyError α) (st : ProdState)
    (e : PyError)
    (h : (wehLoop retries body 0 (retries + 1) none st).exit = .error (some e)) :
    (with_error_handling retries fb body st).outcome =
      match fb with
      | some f => if f.isEmpty then WrapOutcome.raised e else WrapOutcome.fallbackUsed f
      | none => WrapOutcome.raised e := by
  unfold with_error_handling
  dsimp only
  rw [h]
  cases fb <;> simp

lemma weh_outcome_exhausted_none {α : Type} (retries : Nat) (fb : Option Dict)
    (body : Nat → ProdState → ProdState × Except PyError α) (st : ProdState)
    (h : (wehLoop retries body 0 (retries + 1) none st).exit = .error none) :
    (with_error_handling retries fb body st).outcome =
      match fb with
      | some f => if f.isEmpty then WrapOutcome.raisedNone else WrapOutcome.fallbackUsed f
      | none => WrapOutcome.raisedNone := by
  unfold with_error_handling
  dsimp only
  rw [h]
  cases fb <;> simp

lemma find?_key_map_replace (d : List (String × PyVal)) (k : String) (v : PyVal)
    (k2 : String) (hne : k2 ≠ k) :
    List.find? (fun p => p.1 = k2) (d.map (fun p => if p.1 = k then (k, v) else p))
      = List.find? (fun p => p.1 = k2) d := by
  induction d with
  | nil => rfl
  | cons p d ih =>
    by_cases hp : p.1 = k
    · have hq1 : ¬(p.1 = k2) := by rw [hp]; exact fun h2 => hne h2.symm
      rw [List.map_cons, if_pos hp]
      rw [List.find?_cons_of_neg _ (by simpa using fun h2 => hne h2.symm),
        List.find?_cons_of_neg _ (by simpa using hq1)]
      exact ih
    · rw [List.map_cons, if_neg hp]
      by_cases hp2 : p.1 = k2
      · rw [List.find?_cons_of_pos _ (by simpa using hp2),
          List.find?_cons_of_pos _ (by simpa using hp2)]
      · rw [List.find?_cons_of_neg _ (by simpa using hp2),
          List.find?_cons_of_neg _ (by simpa using hp2)]
        exact ih

lemma find?_key_map_replace_self (d : List (String × PyVal)) (k : String) (v : PyVal)
    (hmem : d.any (fun p => p.1 = k)) :
    List.find? (fun p => p.1 = k) (d.map (fun p => if p.1 = k then (k, v) else p))
      = some (k, v) := by
  induction d with
  | nil => simp at hmem
  | cons p d ih =>
    by_cases hp : p.1 = k
    · rw [List.map_cons, if_pos hp]
      rw [List.find?_cons_of_pos _ (by simp)]
    · rw [List.map_cons, if_neg hp]
      rw [List.find?_cons_of_neg _ (by simpa using hp)]
      refine ih ?_
      simp only [List.any_cons] at hmem
      rcases Bool.or_eq_true_iff.mp hmem with h | h
      · exact absurd (by simpa using h) hp
      · exact h

lemma dictGet?_dictSet (d : Dict) (k : String) (v : PyVal) (k2 : String) :
    dictGet? (dictSet d k v) k2 = if k2 = k then some v else dictGet? d k2 := by
  unfold dictSet dictGet?
  by_cases hk : k2 = k
  · rw [if_pos hk]
    split
    · rename_i hmem
      rw [hk, find?_key_map_replace_self d k v hmem]
      simp
    · rename_i hmem
      rw [List.find?_append]
      have hnone : List.find? (fun p => p.1 = k2) d = none := by
        rw [List.find?_eq_none]
        intro p hp
        simp only [Bool.not_eq_true]
        by_contra hcon
        refine hmem (List.any_eq_true.mpr ⟨p, hp, ?_⟩)
        have : p.1 = k2 := by simpa using hcon
        simpa [hk] using this
      rw [hnone]
      simp [List.find?, hk]
  · rw [if_neg hk]
    split
    · rename_i hmem
      rw [find?_key_map_replace d k v k2 hk]
    · rename_i hmem
      rw [List.find?_append]
      have htail : List.find? (fun p => p.1 = k2) [(k, v)] = none := by
        rw [List.find?_eq_none]
        intro p hp
        simp only [List.mem_singleton] at hp
        subst hp
        simpa using fun h2 => hk h2.symm
      rw [htail]
      simp

end InvestmentAssistant

namespace InvestmentAssistant

lemma length_filter_lt_of_mem_not (l : List Rat) (p : Rat → Bool) (x : Rat)
    (hx : x ∈ l) (hpx : ¬ p x = true) : (l.filter p).length < l.length := by
  have h1 : (l.filter p).length ≤ l.length := l.length_filter_le p
  rcases Nat.lt_or_ge (l.filter p).length l.length with h | h
  · exact h
  · exact absurd (List.filter_length_eq_length.mp (le_antisymm h1 h) x hx) hpx

/-! ## Claim theorems -/

/-- Claim C4: with the gate enabled, `rate_limit_check` first prunes the
identity's timestamps to those within the trailing 60 seconds, rejects
without recording the new timestamp exactly when the pruned count
reaches `max_requests_per_minute`, and otherwise records `now` and
admits; in particular a request arriving while the window already holds
`m` fresh timestamps is rejected and does not count, and a request
arriving when the window is at or below `m` entries with its oldest
entry at least 60 seconds old is admitted. -/
theorem C4_rate_limiter (cfg : RateConfig) (tbl : RateTable) (userId? : Option String)
    (now : Rat) (henabled : cfg.apiKeyRequired = true) :
    ((rate_limit_check cfg tbl userId? now).table (userId?.getD "anonymous")
        = if cfg.maxRequestsPerMinute ≤
              ((tbl (userId?.getD "anonymous")).filter (fun t => now - t < 60)).length
          then (tbl (userId?.getD "anonymous")).filter (fun t => now - t < 60)
          else (tbl (userId?.getD "anonymous")).filter (fun t => now - t < 60) ++ [now]) ∧
    ((rate_limit_check cfg tbl userId? now).admitted = false ↔
      cfg.maxRequestsPerMinute ≤
        ((tbl (userId?.getD "anonymous")).filter (fun t => now - t < 60)).length) ∧
    ((tbl (userId?.getD "anonymous")).length = cfg.maxRequestsPerMinute →
      (∀ t ∈ tbl (userId?.getD "anonymous"), now - t < 60) →
      (rate_limit_check cfg tbl userId? now).admitted = false ∧
      (rate_limit_check cfg tbl userId? now).table (userId?.getD "anonymous")
        = tbl (userId?.getD "anonymous")) ∧
    ((tbl (userId?.getD "anonymous")).length ≤ cfg.maxRequestsPerMinute →
      (∃ t ∈ tbl (userId?.getD "anonymous"), 60 ≤ now - t) →
      (rate_limit_check cfg tbl userId? now).admitted = true) := by
  have hbase : rate_limit_check cfg tbl userId? now =
      (let uid := userId?.getD "anonymous"
       let pruned := (tbl uid).filter (fun t => now - t < 60)
       if pruned.length ≥ cfg.maxRequestsPerMinute then
         ⟨fun k => if k = uid then pruned else tbl k, false⟩
       else
         ⟨fun k => if k = uid then pruned ++ [now] else tbl k, true⟩) := by
    unfold rate_limit_check
    rw [henabled]
    rfl
  by_cases hge : cfg.maxRequestsPerMinute ≤
      ((tbl (userId?.getD "anonymous")).filter (fun t => now - t < 60)).length
  · rw [hbase]
    simp only [ge_iff_le, if_pos hge]
    refine ⟨by simp [hge], by simp [hge], ?_, ?_⟩
    · intro hlen hall
      have hself : (tbl (userId?.getD "anonymous")).filter (fun t => now - t < 60)
          = tbl (userId?.getD "anonymous") :=
        List.filter_eq_self.mpr (fun a ha => by simpa using hall a ha)
      exact ⟨by simp, by simp [hself]⟩
    · intro hlen ⟨t, ht, htold⟩
      exfalso
      have hlt : ((tbl (userId?.getD "anonymous")).filter (fun t => now - t < 60)).length
          < (tbl (userId?.getD "anonymous")).length :=
        length_filter_lt_of_mem_not _ _ t ht (by simpa using not_lt.mpr htold)
      omega
  · rw [hbase]
    simp only [ge_iff_le, if_neg hge]
    refine ⟨by simp [hge], by simp [hge], ?_, fun _ _ => by simp⟩
    intro hlen hall
    exfalso
    have hself : (tbl (userId?.getD "anonymous")).filter (fun t => now - t < 60)
        = tbl (userId?.getD "anonymous") :=
      List.filter_eq_self.mpr (fun a ha => by simpa using hall a ha)
    rw [hself, hlen] at hge
    exact hge le_rfl

end InvestmentAssistant

namespace InvestmentAssistant

lemma applyRecords_total_errors (m : MetricsCollector) (evs : List RecordEv) :
    (applyRecords m evs).counters "total_errors" = m.counters "total_errors" := by
  induction evs generalizing m with
  | nil => rfl
  | cons e evs ih =>
    unfold applyRecords at ih ⊢
    rw [List.foldl_cons, ih]
    exact counters_record_request_untouched _ _ _ _ _ _ (by decide)
      (fun j => str_ne_append _ _ _ 1 (by decide) (by decide) (by decide))
      (by decide) (by decide)

/-- Claim C5 (amended): the reported error rate is
`total_errors / max(total_requests, 1)`, where `total_errors` is
incremented only by `record_error`; a sequence consisting solely of
`record_request` calls—failures included—therefore reports rate 0,
which is also the well-defined value with zero requests. -/
theorem C5_amended_error_rate (t0 now : Rat) (evs : List RecordEv) :
    (get_metrics_summary (applyRecords (MetricsCollector.fresh t0) evs) now).errorsRate = 0 ∧
    (∀ (m : MetricsCollector) (t : Rat),
      (get_metrics_summary m t).errorsRate
        = (m.counters "total_errors" : Rat)
            / ((max (m.counters "total_requests") 1 : Nat) : Rat)) := by
  constructor
  · have h0 : (applyRecords (MetricsCollector.fresh t0) evs).counters "total_errors" = 0 := by
      rw [applyRecords_total_errors]; rfl
    simp [get_metrics_summary, h0]
  · intro m t; rfl

/-- Claim C5, counterexample: one failed `record_request` on a fresh
collector leaves the reported rate at 0 even though
`failed / max(total, 1)` is 1. -/
theorem C5_counterexample :
    (applyRecords (MetricsCollector.fresh (mkRat 0 1))
        [⟨mkRat 0 1, "error", mkRat 1 1, false⟩]).counters "failed_requests" = 1 ∧
    (applyRecords (MetricsCollector.fresh (mkRat 0 1))
        [⟨mkRat 0 1, "error", mkRat 1 1, false⟩]).counters "total_requests" = 1 ∧
    (get_metrics_summary (applyRecords (MetricsCollector.fresh (mkRat 0 1))
        [⟨mkRat 0 1, "error", mkRat 1 1, false⟩]) (mkRat 0 1)).errorsRate
      ≠ ((applyRecords (MetricsCollector.fresh (mkRat 0 1))
            [⟨mkRat 0 1, "error", mkRat 1 1, false⟩]).counters "failed_requests" : Rat)
          / ((max ((applyRecords (MetricsCollector.fresh (mkRat 0 1))
            [⟨mkRat 0 1, "error", mkRat 1 1, false⟩]).counters "total_requests") 1 : Nat) : Rat) := by
  refine ⟨by decide, by decide, ?_⟩
  have h1 : (applyRecords (MetricsCollector.fresh (mkRat 0 1))
      [⟨mkRat 0 1, "error", mkRat 1 1, false⟩]).counters "total_errors" = 0 := by decide
  have h2 : (applyRecords (MetricsCollector.fresh (mkRat 0 1))
      [⟨mkRat 0 1, "error", mkRat 1 1, false⟩]).counters "total_requests" = 1 := by decide
  have h3 : (applyRecords (MetricsCollector.fresh (mkRat 0 1))
      [⟨mkRat 0 1, "error", mkRat 1 1, false⟩]).counters "failed_requests" = 1 := by decide
  unfold get_metrics_summary
  dsimp only
  rw [h1, h2, h3]
  norm_num

lemma dictGet?_merge_router (d : Dict) (i : String) (c : Rat) :
    dictGet? (dictMerge d [("intent", .str i), ("confidence", .rat c)]) "intent"
      = some (.str i) := by
  unfold dictMerge
  simp only [List.foldl_cons, List.foldl_nil]
  rw [dictGet?_dictSet, dictGet?_dictSet]
  simp

lemma route_decision_of_intent (st : Dict) (i : String)
    (h : dictGet? st "intent" = some (.str i)) :
    route_decision st =
      if i = "profile_analysis" then "profile_analyzer"
      else if i = "portfolio_creation" then "portfolio_builder"
      else if i = "market_research" then "market_researcher"
      else "question_answerer" := by
  unfold route_decision
  rw [h]
  simp [Option.getD_some, PyVal.str.injEq]

end InvestmentAssistant

namespace InvestmentAssistant

/-- Claim C7 (amended): unparsable classifier output sets intent to the
default `question_answering` with confidence 0.5 and routes to the
question-answering stage; parsable output stores the parsed label
verbatim in the intent field — an unrecognized label stays there
(out-of-set) while `route_decision` still dispatches it to the
question-answering stage. -/
theorem C7_amended_router_fallback (content : String) (d : Dict) :
    (parsedReply? content = none →
      router_node content
        = [("intent", .str "question_answering"), ("confidence", .rat (mkRat 1 2))] ∧
      route_decision (dictMerge d (router_node content)) = "question_answerer") ∧
    (∀ i c, parsedReply? content = some (i, c) →
      dictGet? (router_node content) "intent" = some (.str i) ∧
      (i ≠ "profile_analysis" → i ≠ "portfolio_creation" → i ≠ "market_research" →
        route_decision (dictMerge d (router_node content)) = "question_answerer")) := by
  constructor
  · intro hp
    have hr : router_node content
        = [("intent", .str "question_answering"), ("confidence", .rat (mkRat 1 2))] := by
      unfold router_node; rw [hp]
    refine ⟨hr, ?_⟩
    rw [hr, route_decision_of_intent _ "question_answering"
      (dictGet?_merge_router d "question_answering" (mkRat 1 2))]
    rfl
  · intro i c hp
    have hr : router_node content = [("intent", .str i), ("confidence", .rat c)] := by
      unfold router_node; rw [hp]
    constructor
    · rw [hr]; rfl
    · intro h1 h2 h3
      rw [hr, route_decision_of_intent _ i (dictGet?_merge_router d i c)]
      rw [if_neg h1, if_neg h2, if_neg h3]

/-- Claim C7, counterexample: the parsable reply `"garbage|0.9"` leaves
the out-of-set label `"garbage"` in the intent field with confidence
0.9 — the intent is not set to the default — although routing still
falls back to the question-answering stage. -/
theorem C7_counterexample :
    parsedReply? "garbage|0.9" = some ("garbage", mkRat 9 10) ∧
    dictGet? (router_node "garbage|0.9") "intent" = some (.str "garbage") ∧
    dictGet? (router_node "garbage|0.9") "intent" ≠ some (.str "question_answering") ∧
    dictGet? (router_node "garbage|0.9") "confidence" ≠ some (.rat (mkRat 1 2)) ∧
    route_decision (router_node "garbage|0.9") = "question_answerer" := by
  decide

theorem C7_witness :
    router_node "unintelligible"
        = [("intent", .str "question_answering"), ("confidence", .rat (mkRat 1 2))] ∧
    route_decision (dictMerge [] (router_node "unintelligible")) = "question_answerer" :=
  (C7_amended_router_fallback "unintelligible" []).1 (by decide)

/-- Claim C8: the routing decision is a total function into the four
stage names (anything unmapped goes to `question_answerer`), and one
graph run executes exactly one stage. -/
theorem C8_exactly_one_stage (routerOut : Dict) (stages : String → Dict → Dict)
    (input : Dict) :
    ((graphRun routerOut stages input).2).length = 1 ∧
    (graphRun routerOut stages input).2
      = [route_decision (dictMerge input routerOut)] ∧
    (∀ st : Dict, route_decision st ∈ stageNames) ∧
    (∀ st : Dict, dictGet? st "intent" ≠ some (.str "profile_analysis") →
      dictGet? st "intent" ≠ some (.str "portfolio_creation") →
      dictGet? st "intent" ≠ some (.str "market_research") →
      route_decision st = "question_answerer") := by
  refine ⟨rfl, rfl, ?_, ?_⟩
  · intro st
    unfold route_decision stageNames
    dsimp only
    split_ifs <;> simp
  · intro st h1 h2 h3
    unfold route_decision
    dsimp only
    rcases hg : dictGet? st "intent" with _ | v
    · rfl
    · simp only [Option.getD_some]
      split_ifs with hA hB hC
      · exact absurd (hg.trans (by rw [hA])) h1
      · exact absurd (hg.trans (by rw [hB])) h2
      · exact absurd (hg.trans (by rw [hC])) h3
      · rfl

theorem C8_witness :
    ((graphRun [("intent", .str "weird")] (fun _ d => d) []).2).length = 1 ∧
    route_decision [("intent", .str "weird")] = "question_answerer" :=
  ⟨(C8_exactly_one_stage [("intent", .str "weird")] (fun _ d => d) []).1,
   (C8_exactly_one_stage [("intent", .str "weird")] (fun _ d => d) []).2.2.2
     [("intent", .str "weird")] (by decide) (by decide) (by decide)⟩

/-- Claim C9 (amended): the confidence stored by the router is the
parsed value verbatim — no clamping is applied, so it lies in `[0, 1]`
only when the reply's value does; the parse-failure default 0.5 is in
`[0, 1]`. -/
theorem C9_amended_confidence (content : String) :
    (parsedReply? content = none →
      dictGet? (router_node content) "confidence" = some (.rat (mkRat 1 2)) ∧
      0 ≤ mkRat 1 2 ∧ mkRat 1 2 ≤ 1) ∧
    (∀ i c, parsedReply? content = some (i, c) →
      dictGet? (router_node content) "confidence" = some (.rat c)) := by
  constructor
  · intro hp
    have hr : router_node content
        = [("intent", .str "question_answering"), ("confidence", .rat (mkRat 1 2))] := by
      unfold router_node; rw [hp]
    refine ⟨by rw [hr]; rfl, by norm_num [Rat.mkRat_eq_div]⟩
  · intro i c hp
    have hr : router_node content = [("intent", .str i), ("confidence", .rat c)] := by
      unfold router_node; rw [hp]
    rw [hr]; rfl

/-- Claim C9, counterexample: the reply `"question_answering|1.5"`
stores confidence 1.5, outside `[0, 1]` — no clamping occurs. -/
theorem C9_counterexample :
    dictGet? (router_node "question_answering|1.5") "confidence"
      = some (.rat (mkRat 3 2)) ∧
    ¬ ((mkRat 3 2 : Rat) ≤ 1) := by
  refine ⟨by decide, by norm_num [Rat.mkRat_eq_div]⟩

theorem C9_witness :
    dictGet? (router_node "hello there") "confidence" = some (.rat (mkRat 1 2)) ∧
    0 ≤ mkRat 1 2 ∧ mkRat 1 2 ≤ 1 :=
  (C9_amended_confidence "hello there").1 (by decide)

end InvestmentAssistant

namespace InvestmentAssistant

theorem C4_rate_limiter_witness :
    (RateConfig.mk true 1).apiKeyRequired = true ∧
    ((rate_limit_check ⟨true, 1⟩ (fun _ => ([] : List Rat)) none (mkRat 0 1)).admitted
        = false ↔
      (RateConfig.mk true 1).maxRequestsPerMinute ≤
        ((((fun _ => ([] : List Rat)) : RateTable) ((none : Option String).getD "anonymous")).filter
          (fun t => mkRat 0 1 - t < 60)).length) :=
  ⟨rfl, (C4_rate_limiter ⟨true, 1⟩ (fun _ => []) none (mkRat 0 1) rfl).2.1⟩

/-- Claim C1 (code-bug evidence): on an empty request text the wrapped
`invoke` raises a ValidationError on the single attempt and performs no
retries, but since `last_exception` is never set on the validation path
and a fallback dict is configured, the caller receives the fallback
response, not the rejection the spec describes. -/
theorem C1_validation_returns_fallback :
    (prodInvoke [("user_message", .str "")]
        (fun _ => ⟨.ok [], mkRat 0 1, mkRat 0 1, mkRat 0 1, mkRat 0 1, mkRat 0 1⟩)
        ProdState.fresh).attempts = 1 ∧
    (prodInvoke [("user_message", .str "")]
        (fun _ => ⟨.ok [], mkRat 0 1, mkRat 0 1, mkRat 0 1, mkRat 0 1, mkRat 0 1⟩)
        ProdState.fresh).caught
      = [mkValidationError "user_message cannot be empty"] ∧
    (prodInvoke [("user_message", .str "")]
        (fun _ => ⟨.ok [], mkRat 0 1, mkRat 0 1, mkRat 0 1, mkRat 0 1, mkRat 0 1⟩)
        ProdState.fresh).outcome = .fallbackUsed prodFallback := by
  decide

/-- Claim C2: with a valid input, a graph call failing `k ≤ r` times
with non-validation errors and then succeeding makes exactly `k + 1`
attempts, returns the decorated graph result with no fallback, and
records one request per attempt (`k` failed, one successful). -/
theorem C2_retry_then_success (r k : Nat) (inp : Dict) (env : Nat → AttemptSpec)
    (st : ProdState) (fb : Option Dict) (d : Dict)
    (hv : validate_input inp = none) (hk : k ≤ r)
    (hfail : ∀ n, n < k → ∃ e, (env n).graphOutcome = .raise e ∧
      e.cls ≠ PyErrClass.validationError)
    (hok : (env k).graphOutcome = .ok d) :
    (with_error_handling r fb (fun n s => invokeBody inp (env n) s) st).outcome
        = .success (attemptSuccess d (env k) (st.requestCount + k + 1)) ∧
    (with_error_handling r fb (fun n s => invokeBody inp (env n) s) st).attempts = k + 1 ∧
    (with_error_handling r fb (fun n s => invokeBody inp (env n) s) st).st.metrics.counters
        "total_requests" = st.metrics.counters "total_requests" + (k + 1) ∧
    (with_error_handling r fb (fun n s => invokeBody inp (env n) s) st).st.metrics.counters
        "failed_requests" = st.metrics.counters "failed_requests" + k ∧
    (with_error_handling r fb (fun n s => invokeBody inp (env n) s) st).st.metrics.counters
        "successful_requests" = st.metrics.counters "successful_requests" + 1 := by
  obtain ⟨l1, l2, l3, l4, l5⟩ := wehLoop_fail_then_ok r inp env d hv k 0 (r + 1) none st
    (by omega) (by omega) (fun n hn => by simpa using hfail n hn) (by simpa using hok)
  obtain ⟨c1, c2, c3⟩ := weh_components r fb (fun n s => invokeBody inp (env n) s) st
  refine ⟨?_, ?_, ?_, ?_, ?_⟩
  · refine weh_outcome_ok r fb _ st _ ?_
    simpa using l2
  · rw [c2, l1]
  · rw [c1, l3]
  · rw [c1, l4]
  · rw [c1, l5]

theorem C2_retry_then_success_witness :
    validate_input [("user_message", .str "hi")] = none ∧
    (1 : Nat) ≤ 2 ∧
    ((with_error_handling 2 (some prodFallback)
        (fun n s => invokeBody [("user_message", .str "hi")]
          ((fun j => if j = 0 then
              (⟨.raise ⟨.dataFetchError, "boom", .medium⟩,
                mkRat 0 1, mkRat 0 1, mkRat 0 1, mkRat 0 1, mkRat 0 1⟩ : AttemptSpec)
            else
              ⟨.ok [("intent", .str "question_answering")],
                mkRat 0 1, mkRat 0 1, mkRat 0 1, mkRat 0 1, mkRat 0 1⟩) n) s)
        ProdState.fresh).attempts = 1 + 1) :=
  ⟨by decide, by decide,
   (C2_retry_then_success 2 1 [("user_message", .str "hi")]
      (fun j => if j = 0 then
          ⟨.raise ⟨.dataFetchError, "boom", .medium⟩,
            mkRat 0 1, mkRat 0 1, mkRat 0 1, mkRat 0 1, mkRat 0 1⟩
        else
          ⟨.ok [("intent", .str "question_answering")],
            mkRat 0 1, mkRat 0 1, mkRat 0 1, mkRat 0 1, mkRat 0 1⟩)
      ProdState.fresh (some prodFallback) [("intent", .str "question_answering")]
      (by decide) (by decide)
      (fun n hn => by
        interval_cases n
        exact ⟨⟨.dataFetchError, "boom", .medium⟩, by decide, by decide⟩)
      (by decide)).2.1⟩

end InvestmentAssistant

namespace InvestmentAssistant

/-- Claim C3 (amended): when every attempt fails, a configured
non-empty fallback dict is returned verbatim; with no fallback (or an
empty dict, which Python truthiness treats as unconfigured), the most
recent non-validation error propagates — validation errors never set
`last_exception`, and if only validation errors occurred the wrapper
executes `raise None`, surfacing a TypeError instead of the last
error. -/
theorem C3_amended_exhausted_fallback (retries : Nat) (fb? : Option Dict) (inp : Dict)
    (env : Nat → AttemptSpec) (st : ProdState)
    (hfail : ∀ n, attemptErr? inp (env n) ≠ none) :
    (∀ fb, fb? = some fb → fb ≠ [] →
      (with_error_handling retries fb? (fun n s => invokeBody inp (env n) s) st).outcome
        = .fallbackUsed fb) ∧
    ((fb? = none ∨ fb? = some []) →
      (with_error_handling retries fb? (fun n s => invokeBody inp (env n) s) st).outcome
        = match lastNonVal none
            (with_error_handling retries fb? (fun n s => invokeBody inp (env n) s) st).caught with
          | some e => WrapOutcome.raised e
          | none => WrapOutcome.raisedNone) := by
  have hexit := wehLoop_invoke_allfail retries inp env hfail (retries + 1) 0 none st
  obtain ⟨c1, c2, c3⟩ := weh_components retries fb? (fun n s => invokeBody inp (env n) s) st
  rcases hl : lastNonVal none
      (wehLoop retries (fun n s => invokeBody inp (env n) s) 0 (retries + 1) none st).caught
    with _ | e
  · rw [hl] at hexit
    constructor
    · intro fb hfb hne
      subst hfb
      rw [weh_outcome_exhausted_none retries (some fb) _ st hexit]
      simp only [List.isEmpty_iff]
      rw [if_neg hne]
    · intro hf
      rw [c3, hl]
      rcases hf with hf | hf <;> subst hf
      · rw [weh_outcome_exhausted_none retries none _ st hexit]
      · rw [weh_outcome_exhausted_none retries (some []) _ st hexit]
        simp
  · rw [hl] at hexit
    constructor
    · intro fb hfb hne
      subst hfb
      rw [weh_outcome_exhausted_some retries (some fb) _ st e hexit]
      simp only [List.isEmpty_iff]
      rw [if_neg hne]
    · intro hf
      rw [c3, hl]
      rcases hf with hf | hf <;> subst hf
      · rw [weh_outcome_exhausted_some retries none _ st e hexit]
      · rw [weh_outcome_exhausted_some retries (some []) _ st e hexit]
        simp

/-- Claim C3, counterexample: with no fallback and a single attempt
that raises a ValidationError, the last error raised does not
propagate — `last_exception` stays `None` and the wrapper executes
`raise None` (a TypeError), not the ValidationError. -/
theorem C3_counterexample :
    (with_error_handling 0 none
        (fun n s => invokeBody [("user_message", .str "")]
          ((fun _ => (⟨.ok [], mkRat 0 1, mkRat 0 1, mkRat 0 1, mkRat 0 1, mkRat 0 1⟩
            : AttemptSpec)) n) s)
        ProdState.fresh).caught
      = [mkValidationError "user_message cannot be empty"] ∧
    (with_error_handling 0 none
        (fun n s => invokeBody [("user_message", .str "")]
          ((fun _ => (⟨.ok [], mkRat 0 1, mkRat 0 1, mkRat 0 1, mkRat 0 1, mkRat 0 1⟩
            : AttemptSpec)) n) s)
        ProdState.fresh).outcome = WrapOutcome.raisedNone ∧
    (with_error_handling 0 none
        (fun n s => invokeBody [("user_message", .str "")]
          ((fun _ => (⟨.ok [], mkRat 0 1, mkRat 0 1, mkRat 0 1, mkRat 0 1, mkRat 0 1⟩
            : AttemptSpec)) n) s)
        ProdState.fresh).outcome
      ≠ WrapOutcome.raised (mkValidationError "user_message cannot be empty") := by
  decide

theorem C3_witness :
    ((some prodFallback : Option Dict) = some prodFallback) ∧ prodFallback ≠ [] ∧
    (with_error_handling 1 (some prodFallback)
        (fun n s => invokeBody [("user_message", .str "hi")]
          ((fun _ => (⟨.raise ⟨.dataFetchError, "unreachable", .medium⟩,
            mkRat 0 1, mkRat 0 1, mkRat 0 1, mkRat 0 1, mkRat 0 1⟩ : AttemptSpec)) n) s)
        ProdState.fresh).outcome = .fallbackUsed prodFallback :=
  ⟨rfl, by decide,
   (C3_amended_exhausted_fallback 1 (some prodFallback) [("user_message", .str "hi")]
      (fun _ => ⟨.raise ⟨.dataFetchError, "unreachable", .medium⟩,
        mkRat 0 1, mkRat 0 1, mkRat 0 1, mkRat 0 1, mkRat 0 1⟩)
      ProdState.fresh (fun n =>
        show attemptErr? [("user_message", .str "hi")]
            (⟨.raise ⟨.dataFetchError, "unreachable", .medium⟩, mkRat 0 1, mkRat 0 1,
              mkRat 0 1, mkRat 0 1, mkRat 0 1⟩ : AttemptSpec) ≠ none from by decide)).1
     prodFallback rfl (by decide)⟩

end InvestmentAssistant

namespace InvestmentAssistant

/-- Claim C6 (amended): every failure caught during an attempt is
recorded exactly once per occurrence in `ErrorHandler`'s
frequency-tracking log keyed on `(type name, message[:100])`, and each
caught error is appended once to the structured log with its
severity-derived level preserved; `MetricsCollector`'s error counters
(`total_errors`, `error_*`, `severity_*`) are never updated, because
`record_error` has no caller — failed attempts are instead counted as
failed requests. -/
theorem C6_amended_error_recording (retries : Nat) (fb : Option Dict) (inp : Dict)
    (env : Nat → AttemptSpec) (st : ProdState) :
    (with_error_handling retries fb (fun n s => invokeBody inp (env n) s) st).st.handler.logged
      = st.handler.logged
          ++ ((with_error_handling retries fb (fun n s => invokeBody inp (env n) s) st).caught.map
            (fun e => (e, logLevelOf e))) ∧
    (∀ k, (with_error_handling retries fb
          (fun n s => invokeBody inp (env n) s) st).st.handler.errorCounts k
        = st.handler.errorCounts k
          + (((with_error_handling retries fb
              (fun n s => invokeBody inp (env n) s) st).caught.map errorKey).count k)) ∧
    (with_error_handling retries fb (fun n s => invokeBody inp (env n) s) st).st.metrics.counters
        "total_errors" = st.metrics.counters "total_errors" ∧
    (∀ x, (with_error_handling retries fb
          (fun n s => invokeBody inp (env n) s) st).st.metrics.counters ("error_" ++ x)
        = st.metrics.counters ("error_" ++ x)) ∧
    (∀ x, (with_error_handling retries fb
          (fun n s => invokeBody inp (env n) s) st).st.metrics.counters ("severity_" ++ x)
        = st.metrics.counters ("severity_" ++ x)) := by
  obtain ⟨s1, s2, s3⟩ := wehLoop_invoke_state retries inp env (retries + 1) 0 none st
  obtain ⟨c1, c2, c3⟩ := weh_components retries fb (fun n s => invokeBody inp (env n) s) st
  refine ⟨?_, ?_, ?_, ?_, ?_⟩
  · rw [c1, c3, s1, foldl_log_error_logged]
  · intro k
    rw [c1, c3, s1, foldl_log_error_counts]
  · rw [c1]
    exact s2 "total_errors" (by decide)
      (fun j => str_ne_append _ _ _ 1 (by decide) (by decide) (by decide))
      (by decide) (by decide)
  · intro x
    rw [c1]
    exact s2 ("error_" ++ x)
      (Ne.symm (str_ne_append "total_requests" "error_" x 1 (by decide) (by decide) (by decide)))
      (fun j => append_ne_append_of_take 1 "error_" "intent_" x j
        (by decide) (by decide) (by decide))
      (Ne.symm (str_ne_append "successful_requests" "error_" x 1
        (by decide) (by decide) (by decide)))
      (Ne.symm (str_ne_append "failed_requests" "error_" x 1
        (by decide) (by decide) (by decide)))
  · intro x
    rw [c1]
    exact s2 ("severity_" ++ x)
      (Ne.symm (str_ne_append "total_requests" "severity_" x 1 (by decide) (by decide) (by decide)))
      (fun j => append_ne_append_of_take 1 "severity_" "intent_" x j
        (by decide) (by decide) (by decide))
      (Ne.symm (str_ne_append "successful_requests" "severity_" x 2
        (by decide) (by decide) (by decide)))
      (Ne.symm (str_ne_append "failed_requests" "severity_" x 1
        (by decide) (by decide) (by decide)))

/-- Claim C6, counterexample: a run whose single attempt fails with a
`DataFetchError` logs the failure once in the handler's frequency log,
yet every MetricsCollector error counter stays at zero — the failure is
never recorded in the collector's error counters. -/
theorem C6_counterexample :
    (with_error_handling 0 (some prodFallback)
        (fun n s => invokeBody [("user_message", .str "hi")]
          ((fun _ => (⟨.raise ⟨.dataFetchError, "boom", .medium⟩,
            mkRat 0 1, mkRat 0 1, mkRat 0 1, mkRat 0 1, mkRat 0 1⟩ : AttemptSpec)) n) s)
        ProdState.fresh).caught.length = 1 ∧
    (with_error_handling 0 (some prodFallback)
        (fun n s => invokeBody [("user_message", .str "hi")]
          ((fun _ => (⟨.raise ⟨.dataFetchError, "boom", .medium⟩,
            mkRat 0 1, mkRat 0 1, mkRat 0 1, mkRat 0 1, mkRat 0 1⟩ : AttemptSpec)) n) s)
        ProdState.fresh).st.handler.errorCounts "DataFetchError:boom" = 1 ∧
    (with_error_handling 0 (some prodFallback)
        (fun n s => invokeBody [("user_message", .str "hi")]
          ((fun _ => (⟨.raise ⟨.dataFetchError, "boom", .medium⟩,
            mkRat 0 1, mkRat 0 1, mkRat 0 1, mkRat 0 1, mkRat 0 1⟩ : AttemptSpec)) n) s)
        ProdState.fresh).st.metrics.counters "total_errors" = 0 ∧
    (with_error_handling 0 (some prodFallback)
        (fun n s => invokeBody [("user_message", .str "hi")]
          ((fun _ => (⟨.raise ⟨.dataFetchError, "boom", .medium⟩,
            mkRat 0 1, mkRat 0 1, mkRat 0 1, mkRat 0 1, mkRat 0 1⟩ : AttemptSpec)) n) s)
        ProdState.fresh).st.metrics.counters "error_DataFetchError" = 0 ∧
    (with_error_handling 0 (some prodFallback)
        (fun n s => invokeBody [("user_message", .str "hi")]
          ((fun _ => (⟨.raise ⟨.dataFetchError, "boom", .medium⟩,
            mkRat 0 1, mkRat 0 1, mkRat 0 1, mkRat 0 1, mkRat 0 1⟩ : AttemptSpec)) n) s)
        ProdState.fresh).st.metrics.counters "total_errors"
      ≠ (with_error_handling 0 (some prodFallback)
        (fun n s => invokeBody [("user_message", .str "hi")]
          ((fun _ => (⟨.raise ⟨.dataFetchError, "boom", .medium⟩,
            mkRat 0 1, mkRat 0 1, mkRat 0 1, mkRat 0 1, mkRat 0 1⟩ : AttemptSpec)) n) s)
        ProdState.fresh).caught.length := by
  decide

end InvestmentAssistant

namespace InvestmentAssistant

/-- Claim C10: `get_health_status` runs the full production `invoke` on
its built-in probe request, so each health check makes at least one
attempt, each attempt incrementing the request counters and id,
appending to the response-time and request-timestamp windows, and
adding a `graph_execution` timing sample; the reported
`requests_processed`, `error_rate` and `avg_response_time` are computed
from the post-probe collector state and therefore include the probe
itself. -/
theorem C10_health_probe_side_effects (st : ProdState) (env : Nat → AttemptSpec)
    (now : Rat) :
    (get_health_status st env now).1 = (prodInvoke testRequestInput env st).st ∧
    1 ≤ (prodInvoke testRequestInput env st).attempts ∧
    (prodInvoke testRequestInput env st).st.metrics.counters "total_requests"
      = st.metrics.counters "total_requests" + (prodInvoke testRequestInput env st).attempts ∧
    (prodInvoke testRequestInput env st).st.requestCount
      = st.requestCount + (prodInvoke testRequestInput env st).attempts ∧
    (prodInvoke testRequestInput env st).st.metrics.responseTimes.length
      = min (st.metrics.responseTimes.length + (prodInvoke testRequestInput env st).attempts)
          st.metrics.windowSize ∧
    (prodInvoke testRequestInput env st).st.metrics.requestTimestamps.length
      = min (st.metrics.requestTimestamps.length
          + (prodInvoke testRequestInput env st).attempts) st.metrics.windowSize ∧
    ((prodInvoke testRequestInput env st).st.perf.componentMetrics "graph_execution").length
      = min ((st.perf.componentMetrics "graph_execution").length
          + (prodInvoke testRequestInput env st).attempts) 100 ∧
    (get_health_status st env now).2.requestsProcessed
      = st.metrics.counters "total_requests" + (prodInvoke testRequestInput env st).attempts ∧
    (get_health_status st env now).2.errorRate
      = ((prodInvoke testRequestInput env st).st.metrics.counters "total_errors" : Rat)
          / ((max ((prodInvoke testRequestInput env st).st.metrics.counters "total_requests")
            1 : Nat) : Rat) ∧
    (get_health_status st env now).2.avgResponseTime
      = (if (prodInvoke testRequestInput env st).st.metrics.responseTimes.length = 0 then 0
         else (prodInvoke testRequestInput env st).st.metrics.responseTimes.sum
            / ((prodInvoke testRequestInput env st).st.metrics.responseTimes.length : Rat)) := by
  have hv : validate_input testRequestInput = none := by decide
  obtain ⟨c1, c2, c3⟩ := weh_components 2 (some prodFallback)
    (fun n s => invokeBody testRequestInput (env n) s) st
  have hpos : 1 ≤ (prodInvoke testRequestInput env st).attempts := by
    rw [show (prodInvoke testRequestInput env st).attempts
        = (with_error_handling 2 (some prodFallback)
          (fun n s => invokeBody testRequestInput (env n) s) st).attempts from rfl, c2]
    exact wehLoop_attempts_pos 2 _ 3 0 none st (by omega)
  have htot := wehLoop_total_requests 2 testRequestInput env 3 0 none st
  have hrc := wehLoop_requestCount 2 testRequestInput env 3 0 none st
  have hws := wehLoop_windowSize 2 testRequestInput env 3 0 none st
  have hrl := wehLoop_responseTimes_len 2 testRequestInput env 3 0 none st
  have htl := wehLoop_requestTimestamps_len 2 testRequestInput env 3 0 none st
  have hpl := wehLoop_perf_len 2 testRequestInput env hv 3 0 none st
  have hattne : (wehLoop 2 (fun n s => invokeBody testRequestInput (env n) s)
      0 3 none st).attempts ≠ 0 := by
    have := wehLoop_attempts_pos 2
      (fun n s => invokeBody testRequestInput (env n) s) 3 0 none st (by omega)
    omega
  rw [if_neg hattne] at hrl htl hpl
  refine ⟨rfl, hpos, ?_, ?_, ?_, ?_, ?_, ?_, rfl, rfl⟩
  · rw [show (prodInvoke testRequestInput env st).st
        = (with_error_handling 2 (some prodFallback)
          (fun n s => invokeBody testRequestInput (env n) s) st).st from rfl, c1,
      show (prodInvoke testRequestInput env st).attempts
        = (with_error_handling 2 (some prodFallback)
          (fun n s => invokeBody testRequestInput (env n) s) st).attempts from rfl, c2]
    exact htot
  · rw [show (prodInvoke testRequestInput env st).st
        = (with_error_handling 2 (some prodFallback)
          (fun n s => invokeBody testRequestInput (env n) s) st).st from rfl, c1,
      show (prodInvoke testRequestInput env st).attempts
        = (with_error_handling 2 (some prodFallback)
          (fun n s => invokeBody testRequestInput (env n) s) st).attempts from rfl, c2]
    exact hrc
  · rw [show (prodInvoke testRequestInput env st).st
        = (with_error_handling 2 (some prodFallback)
          (fun n s => invokeBody testRequestInput (env n) s) st).st from rfl, c1,
      show (prodInvoke testRequestInput env st).attempts
        = (with_error_handling 2 (some prodFallback)
          (fun n s => invokeBody testRequestInput (env n) s) st).attempts from rfl, c2]
    exact hrl
  · rw [show (prodInvoke testRequestInput env st).st
        = (with_error_handling 2 (some prodFallback)
          (fun n s => invokeBody testRequestInput (env n) s) st).st from rfl, c1,
      show (prodInvoke testRequestInput env st).attempts
        = (with_error_handling 2 (some prodFallback)
          (fun n s => invokeBody testRequestInput (env n) s) st).attempts from rfl, c2]
    exact htl
  · rw [show (prodInvoke testRequestInput env st).st
        = (with_error_handling 2 (some prodFallback)
          (fun n s => invokeBody testRequestInput (env n) s) st).st from rfl, c1,
      show (prodInvoke testRequestInput env st).attempts
        = (with_error_handling 2 (some prodFallback)
          (fun n s => invokeBody testRequestInput (env n) s) st).attempts from rfl, c2]
    exact hpl
  · rw [show (get_health_status st env now).2.requestsProcessed
        = (prodInvoke testRequestInput env st).st.metrics.counters "total_requests" from rfl,
      show (prodInvoke testRequestInput env st).st
        = (with_error_handling 2 (some prodFallback)
          (fun n s => invokeBody testRequestInput (env n) s) st).st from rfl, c1,
      show (prodInvoke testRequestInput env st).attempts
        = (with_error_handling 2 (some prodFallback)
          (fun n s => invokeBody testRequestInput (env n) s) st).attempts from rfl, c2]
    exact htot

end InvestmentAssistant
